import Mathlib

/-!
Shallow embedding of the pyOpenSci Django site's `core` app
(`src/core/utils.py`, `src/core/views.py`) together with the page models it
queries (`src/publications/models.py`), and proofs checking the frozen claims
about it.

Modelling conventions:
* Python values flowing through the YAML data layer are modelled by the
  inductive type `Val` (None, str, int, bool, list, dict, date).  Nested
  dictionaries inside dictionary values and floats are not needed by any of
  the checked code paths and are not modelled.
* Machine-level details that cannot affect any checked claim are simplified:
  string operations are modelled over the ASCII whitespace/digit classes
  (Python's `str.strip`, `int()` and `str.isdigit` additionally accept some
  non-ASCII Unicode characters), and `repr` quoting inside `str()` of
  containers does not escape quote characters.  No claim depends on these.
* Exceptions become `Except` values; a `try/except` becomes a `match`.
* `sorted(..., key=k, reverse=True)` (a stable sort) is modelled by
  `List.insertionSort` with the reflexive "key not smaller" relation, which
  is also a stable sort, so it produces the same list.
-/

/-- Python `datetime.date` (and the `datetime` objects produced by
`strptime` with the four date-only formats of `parse_contributor_date`,
whose time-of-day parts are always zero). -/
structure PDate where
  y : Nat
  m : Nat
  d : Nat
deriving DecidableEq, Repr

/-- `datetime.min.date()`, i.e. `date(1, 1, 1)`. -/
def PDate.min : PDate := ⟨1, 1, 1⟩

/-- Boolean comparison `a ≤ b` on dates (lexicographic on year, month, day),
matching how Python compares `date` objects. -/
def PDate.leb (a b : PDate) : Bool :=
  a.y < b.y || (a.y = b.y && (a.m < b.m || (a.m = b.m && a.d ≤ b.d)))

/-- Boolean comparison `a < b` on dates. -/
def PDate.ltb (a b : PDate) : Bool :=
  a.y < b.y || (a.y = b.y && (a.m < b.m || (a.m = b.m && a.d < b.d)))

/-- The Python values handled by the contributor/package data layer:
`None`, `str`, `int`, `bool`, `list`, `dict` (with string keys, as produced
by the YAML documents the code consumes) and `datetime.date`. -/
inductive Val where
  | none : Val
  | str (s : String) : Val
  | int (n : Int) : Val
  | bool (b : Bool) : Val
  | list (xs : List Val) : Val
  | dict (d : List (String × Val)) : Val
  | date (d : PDate) : Val

/-- A Python dictionary with string keys, as an insertion-ordered
association list with distinct keys (Python dictionaries cannot hold a key
twice; lookup takes the first binding). -/
abbrev PyDict := List (String × Val)

/-- Dictionary lookup (`d[k]` / `d.get(k)` on the key side). -/
def pyLookup (d : PyDict) (k : String) : Option Val :=
  match d with
  | [] => Option.none
  | (k', v) :: rest => if k' = k then Option.some v else pyLookup rest k

/-- Dictionary assignment `d[k] = v`: an existing key keeps its position in
insertion order, a new key is appended, exactly as in a Python dict. -/
def pyInsert (d : PyDict) (k : String) (v : Val) : PyDict :=
  match d with
  | [] => [(k, v)]
  | (k', v') :: rest =>
      if k' = k then (k', v) :: rest else (k', v') :: pyInsert rest k v

/-- Python truthiness (`bool(v)` / `if v:`). -/
def pyTruthy (v : Val) : Bool :=
  match v with
  | .none => false
  | .str s => s ≠ ""
  | .int n => n ≠ 0
  | .bool b => b
  | .list xs => !xs.isEmpty
  | .dict d => !d.isEmpty
  | .date _ => true

mutual

/-- Python `str(v)`. -/
def pyStr (v : Val) : String :=
  match v with
  | .none => "None"
  | .str s => s
  | .int n => toString n
  | .bool b => if b then "True" else "False"
  | .date dt =>
      (if dt.y < 10 then "000" else if dt.y < 100 then "00"
       else if dt.y < 1000 then "0" else "") ++ toString dt.y ++ "-"
      ++ (if dt.m < 10 then "0" else "") ++ toString dt.m ++ "-"
      ++ (if dt.d < 10 then "0" else "") ++ toString dt.d
  | .list xs => "[" ++ String.intercalate (", ") (pyReprList xs) ++ "]"
  | .dict d => "\x7b" ++ String.intercalate (", ") (pyReprDict d) ++ "\x7d"

/-- Python `repr(v)`, as used for the elements when a container is turned
into a string (quote characters inside strings are not escaped; no checked
code path depends on the printed form of a container). -/
def pyRepr (v : Val) : String :=
  match v with
  | .str s => "'" ++ s ++ "'"
  | .date dt =>
      "datetime.date(" ++ toString dt.y ++ ", " ++ toString dt.m ++ ", "
      ++ toString dt.d ++ ")"
  | .list xs => "[" ++ String.intercalate (", ") (pyReprList xs) ++ "]"
  | .dict d => "\x7b" ++ String.intercalate (", ") (pyReprDict d) ++ "\x7d"
  | v => pyStr v

/-- `repr` of the elements of a list value. -/
def pyReprList (xs : List Val) : List String :=
  match xs with
  | [] => []
  | x :: rest => pyRepr x :: pyReprList rest

/-- `repr` of the entries of a dict value. -/
def pyReprDict (d : List (String × Val)) : List String :=
  match d with
  | [] => []
  | (k, v) :: rest => ("'" ++ k ++ "': " ++ pyRepr v) :: pyReprDict rest

end

/-- The characters stripped by Python's `str.strip()` (ASCII whitespace). -/
def isPySpace (c : Char) : Bool :=
  c = ' ' || c = '\t' || c = '\n' || c = '\r' || c = '\x0b' || c = '\x0c'

/-- Python `s.strip()`. -/
def pyStrip (s : String) : String :=
  String.mk (((s.data.dropWhile isPySpace).reverse.dropWhile isPySpace).reverse)

/-- One ASCII digit's value, if the character is a digit. -/
def digitVal (c : Char) : Nat := c.toNat - 48

/-- Python `str.isdigit()` over ASCII: the string is non-empty and all of
its characters are decimal digits. -/
def pyIsDigit (s : String) : Bool :=
  !s.isEmpty && s.data.all Char.isDigit

/-- Numeric value of a digit string. -/
def digitsToNat (l : List Char) : Nat :=
  l.foldl (fun n c => n * 10 + digitVal c) 0

/-- Tail of the digit grammar accepted by Python's `int(str)`: further
digits with single underscores allowed between digits. -/
def intTailValid : List Char → Bool
  | [] => true
  | '_' :: c :: cs => c.isDigit && intTailValid cs
  | '_' :: [] => false
  | c :: cs => c.isDigit && intTailValid cs

/-- The digit part accepted by Python's `int(str)`: at least one digit,
underscores only between digits. -/
def intDigitsValid : List Char → Bool
  | [] => false
  | c :: cs => c.isDigit && intTailValid cs

/-- Python `int(s)` for a string `s`: surrounding whitespace and a single
sign are allowed, then digits with optional single underscores between
them; `Option.none` models the `ValueError` on any other input. -/
def pyIntOfString (s : String) : Option Int :=
  let core := (pyStrip s).data
  let (sign, digs) : Bool × List Char :=
    match core with
    | '-' :: rest => (true, rest)
    | '+' :: rest => (false, rest)
    | rest => (false, rest)
  if intDigitsValid digs then
    let n : Int := Int.ofNat (digitsToNat (digs.filter Char.isDigit))
    Option.some (if sign then -n else n)
  else Option.none

/-- Python `int(v)` on a value, as used with `except (ValueError, TypeError)`:
ints pass through, bools become 0/1, strings are parsed, everything else
(None, lists, dicts, dates) raises and is modelled as `Option.none`. -/
def pyInt (v : Val) : Option Int :=
  match v with
  | .int n => Option.some n
  | .bool b => Option.some (if b then 1 else 0)
  | .str s => pyIntOfString s
  | _ => Option.none

/-! ### `strptime` for the four formats of `parse_contributor_date`

CPython's `_strptime` compiles `%Y` to the regex `\d\d\d\d`, `%m` to
`1[0-2]|0[1-9]|[1-9]` and `%d` to `3[01]|[12]\d|0[1-9]|[1-9]`, matches the
whole string, and then builds a `datetime`, which raises `ValueError` for a
day beyond the month's length or a year below `MINYEAR = 1`.  The matcher
below implements exactly this, including the regex's left-to-right
alternative order with backtracking. -/

/-- A token of a `strptime` format string: a literal separator character,
or the `%Y`, `%m`, `%d` directives. -/
inductive FTok where
  | lit (c : Char) : FTok
  | yY : FTok
  | mM : FTok
  | dD : FTok

/-- Partial match state: the values captured so far for `%Y`, `%m`, `%d`. -/
structure MatchSt where
  y : Option Nat
  m : Option Nat
  d : Option Nat
deriving Repr

/-- Regex-style matcher for a token list against the remaining characters,
trying each directive's alternatives in the order CPython's `_strptime`
regexes list them, with backtracking via `Option.orElse`. -/
def matchToks : List FTok → List Char → MatchSt → Option MatchSt
  | [], [], st => Option.some st
  | [], _ :: _, _ => Option.none
  | .lit _ :: _, [], _ => Option.none
  | .lit c :: ts, x :: xs, st =>
      if x = c then matchToks ts xs st else Option.none
  | .yY :: ts, cs, st =>
      match cs with
      | c1 :: c2 :: c3 :: c4 :: rest =>
          if c1.isDigit && c2.isDigit && c3.isDigit && c4.isDigit then
            matchToks ts rest
              { st with y := Option.some (digitsToNat [c1, c2, c3, c4]) }
          else Option.none
      | _ => Option.none
  | .mM :: ts, cs, st =>
      (match cs with
       | c1 :: c2 :: rest =>
           if c1 = '1' && (c2 = '0' || c2 = '1' || c2 = '2') then
             matchToks ts rest
               { st with m := Option.some (digitsToNat [c1, c2]) }
           else Option.none
       | _ => Option.none).orElse fun _ =>
      (match cs with
       | c1 :: c2 :: rest =>
           if c1 = '0' && c2.isDigit && c2 ≠ '0' then
             matchToks ts rest { st with m := Option.some (digitVal c2) }
           else Option.none
       | _ => Option.none).orElse fun _ =>
      (match cs with
       | c1 :: rest =>
           if c1.isDigit && c1 ≠ '0' then
             matchToks ts rest { st with m := Option.some (digitVal c1) }
           else Option.none
       | _ => Option.none)
  | .dD :: ts, cs, st =>
      (match cs with
       | c1 :: c2 :: rest =>
           if c1 = '3' && (c2 = '0' || c2 = '1') then
             matchToks ts rest
               { st with d := Option.some (digitsToNat [c1, c2]) }
           else Option.none
       | _ => Option.none).orElse fun _ =>
      (match cs with
       | c1 :: c2 :: rest =>
           if (c1 = '1' || c1 = '2') && c2.isDigit then
             matchToks ts rest
               { st with d := Option.some (digitsToNat [c1, c2]) }
           else Option.none
       | _ => Option.none).orElse fun _ =>
      (match cs with
       | c1 :: c2 :: rest =>
           if c1 = '0' && c2.isDigit && c2 ≠ '0' then
             matchToks ts rest { st with d := Option.some (digitVal c2) }
           else Option.none
       | _ => Option.none).orElse fun _ =>
      (match cs with
       | c1 :: rest =>
           if c1.isDigit && c1 ≠ '0' then
             matchToks ts rest { st with d := Option.some (digitVal c1) }
           else Option.none
       | _ => Option.none)

/-- Whether a year is a Gregorian leap year. -/
def isLeapYear (y : Nat) : Bool :=
  y % 4 = 0 && (y % 100 ≠ 0 || y % 400 = 0)

/-- Number of days in a month. -/
def daysInMonth (y m : Nat) : Nat :=
  if m = 2 then (if isLeapYear y then 29 else 28)
  else if m = 4 || m = 6 || m = 9 || m = 11 then 30
  else 31

/-- The validation `datetime(y, m, d)` performs after the regex match:
`MINYEAR = 1 ≤ y`, a valid month, and a day within the month. -/
def mkValidDate (y m d : Nat) : Option PDate :=
  if 1 ≤ y && 1 ≤ m && m ≤ 12 && 1 ≤ d && d ≤ daysInMonth y m then
    Option.some ⟨y, m, d⟩
  else Option.none

/-- `datetime.strptime(s, fmt)` for a date-only format, returning the date
part (the time parts are zero); `Option.none` models the `ValueError`. -/
def strptimeDate (fmt : List FTok) (s : String) : Option PDate :=
  match matchToks fmt s.data ⟨Option.none, Option.none, Option.none⟩ with
  | Option.none => Option.none
  | Option.some st =>
      match st.y, st.m, st.d with
      | Option.some y, Option.some m, Option.some d => mkValidDate y m d
      | _, _, _ => Option.none

/-- The format `'%Y-%m-%d'`. -/
def fmtYMDdash : List FTok := [.yY, .lit '-', .mM, .lit '-', .dD]

/-- The format `'%Y/%m/%d'`. -/
def fmtYMDslash : List FTok := [.yY, .lit '/', .mM, .lit '/', .dD]

/-- The format `'%m/%d/%Y'`. -/
def fmtMDY : List FTok := [.mM, .lit '/', .dD, .lit '/', .yY]

/-- The format `'%d/%m/%Y'`. -/
def fmtDMY : List FTok := [.dD, .lit '/', .mM, .lit '/', .yY]

/-- The `date_formats` list of `parse_contributor_date`, in source order. -/
def dateFormats : List (List FTok) := [fmtYMDdash, fmtYMDslash, fmtMDY, fmtDMY]

/-- `core.utils.parse_contributor_date`: falsy inputs give `None`; otherwise
the input is converted to a string, stripped, and the four formats are tried
in order, the first successful parse winning; if all fail, `None`. -/
def parse_contributor_date (v : Val) : Option PDate :=
  if !pyTruthy v then Option.none
  else
    let s := pyStrip (pyStr v)
    dateFormats.findSome? (fun fmt => strptimeDate fmt s)

/-! ### `core.utils`: fetching and cleaning contributor data -/

/-- The exceptions that can escape `clean_contributor_data`:
`ContributorDataError` for a missing `github_username`, and `TypeError`
when a non-dictionary reaches an `in` test or a subscript (`KeyError` is
listed for the `home` view's subscripts). -/
inductive PyErr where
  | contributorDataError : PyErr
  | typeError : PyErr
  | keyError : PyErr
deriving DecidableEq, Repr

/-- The `string_fields` list of `clean_contributor_data`, in source order. -/
def stringFields : List String :=
  ["name", "bio", "organization", "location", "email",
   "twitter", "mastodon", "orcidid", "website"]

/-- The integer fields of `clean_contributor_data`, in source order. -/
def intFields : List String := ["github_image_id", "sort"]

/-- The `boolean_fields` list of `clean_contributor_data`, in source order. -/
def booleanFields : List String :=
  ["deia_advisory", "editorial_board", "emeritus_editor",
   "advisory", "emeritus_advisory", "board"]

/-- The `list_fields` list of `clean_contributor_data`, in source order. -/
def listFields : List String :=
  ["title", "partners", "contributor_type", "packages_eic",
   "packages_editor", "packages_submitted", "packages_reviewed"]

/-- The cleaned value of one list field: `None` becomes `[]`, a list keeps
the non-`None` items whose stripped string form is non-empty (stripped), and
any other single value becomes a one-element list of its stripped string
form, or `[]` when that is empty. -/
def cleanListField (v : Val) : Val :=
  match v with
  | .none => .list []
  | .list xs =>
      .list ((xs.filter
        (fun it => !(it matches Val.none) && pyStrip (pyStr it) ≠ "")).map
          (fun it => .str (pyStrip (pyStr it))))
  | v => if pyStrip (pyStr v) ≠ "" then .list [.str (pyStrip (pyStr v))]
         else .list []

/-- The body of `clean_contributor_data` once the input is known to be a
dictionary containing `github_username`: the cleaned dictionary in its
insertion order (required field, then string, integer, date, boolean and
list fields). -/
def cleanDict (d : PyDict) (gu : Val) : PyDict :=
  [(("github_username" : String), gu)]
  ++ stringFields.filterMap (fun f =>
       let value := (pyLookup d f).getD .none
       if pyTruthy value && pyStrip (pyStr value) ≠ "" then
         Option.some (f, Val.str (pyStrip (pyStr value)))
       else Option.none)
  ++ intFields.filterMap (fun f =>
       let value := (pyLookup d f).getD .none
       if value matches Val.none then Option.none
       else match pyInt value with
            | Option.some n => Option.some (f, Val.int n)
            | Option.none => Option.none)
  ++ (let date_added := (pyLookup d ("date_added")).getD .none
      if pyTruthy date_added then
        match parse_contributor_date date_added with
        | Option.some pd => [(("date_added" : String), Val.date pd)]
        | Option.none => []
      else [])
  ++ booleanFields.filterMap (fun f =>
       let value := (pyLookup d f).getD .none
       if value matches Val.none then Option.none
       else Option.some (f, Val.bool (pyTruthy value)))
  ++ listFields.map (fun f => (f, cleanListField ((pyLookup d f).getD (.list []))))

/-- `core.utils.clean_contributor_data`.  The required-field check is
`'github_username' not in contributor` followed by a subscript: on a
dictionary, `in` tests the keys; on a string, `in` is a substring test and
the subscript then raises `TypeError`; on a list, `in` tests the elements
(the needle, a string, only equals string elements) and the subscript then
raises `TypeError`; any other value makes `in` itself raise `TypeError`. -/
def clean_contributor_data (contributor : Val) : Except PyErr PyDict :=
  match contributor with
  | .dict d =>
      match pyLookup d ("github_username") with
      | Option.none => .error .contributorDataError
      | Option.some gu => .ok (cleanDict d gu)
  | .str s =>
      if (s.splitOn ("github_username")).length > 1 then .error .typeError
      else .error .contributorDataError
  | .list xs =>
      if xs.any (fun x => x matches Val.str _ && pyStr x = "github_username")
      then .error .typeError
      else .error .contributorDataError
  | _ => .error .typeError

/-- The outcome of the network fetch and YAML parse attempted inside
`fetch_contributors_yaml` (and, for the packages listing,
`fetch_packages_yaml`): the parsed document, or a raised `URLError`,
`yaml.YAMLError`, or any other exception, each carrying its message. -/
inductive NetOutcome where
  | ok (doc : Val) : NetOutcome
  | urlError (msg : String) : NetOutcome
  | yamlError (msg : String) : NetOutcome
  | otherError (msg : String) : NetOutcome

/-- `core.utils.fetch_contributors_yaml`, as a function of the fetch/parse
outcome.  An error result models a raised `ContributorDataError` carrying
the given message.  Note that the `raise ContributorDataError("YAML data
should be a list of contributors")` sits inside the `try` block, so it is
caught by the final `except Exception` handler and re-raised with the
`"Unexpected error: "` prefix. -/
def fetch_contributors_yaml (net : NetOutcome) : Except String Val :=
  match net with
  | .ok doc =>
      match doc with
      | .list xs => .ok (.list xs)
      | _ => .error ("Unexpected error: YAML data should be a list of contributors")
  | .urlError msg => .error ("Network error: " ++ msg)
  | .yamlError msg => .error ("YAML parsing error: " ++ msg)
  | .otherError msg => .error ("Unexpected error: " ++ msg)

/-- The cleaning loop of `get_recent_contributors`: each contributor is
cleaned; a `ContributorDataError` skips that contributor and continues; any
other exception escapes the loop (it is only caught by the surrounding
`except Exception`, which discards the whole result). -/
def cleanAll (contributors : List Val) : Except PyErr (List PyDict) :=
  match contributors with
  | [] => .ok []
  | c :: rest =>
      match clean_contributor_data c with
      | .ok cleaned =>
          match cleanAll rest with
          | .ok tail => .ok (cleaned :: tail)
          | .error e => .error e
      | .error .contributorDataError => cleanAll rest
      | .error e => .error e

/-- The `sort_key` closure of `get_recent_contributors`: the pair of the
`date_added` value (with `datetime.min.date()` for contributors without
one) and the `sort` value (defaulting to 999999).  On the dictionaries
produced by `clean_contributor_data`, `date_added` is always a date and
`sort` always an int, which the extraction relies on. -/
def contribSortKey (c : PyDict) : PDate × Int :=
  let date_added :=
    match pyLookup c ("date_added") with
    | Option.some (.date dt) => dt
    | _ => PDate.min
  let sort_value :=
    match pyLookup c ("sort") with
    | Option.some (.int n) => n
    | _ => 999999
  (date_added, sort_value)

/-- Lexicographic `≤` on sort keys, as Python compares the key tuples. -/
def keyLeb (a b : PDate × Int) : Bool :=
  PDate.ltb a.1 b.1 || (a.1 = b.1 && a.2 ≤ b.2)

/-- `sorted(..., key=sort_key, reverse=True)` puts `a` before `b` when the
key of `a` is not smaller than the key of `b`; ties keep the original
order (Python's sort is stable, as is `List.insertionSort`). -/
def contribGe (a b : PyDict) : Prop :=
  keyLeb (contribSortKey b) (contribSortKey a) = true

instance : DecidableRel contribGe := fun _ _ =>
  inferInstanceAs (Decidable (_ = true))

/-- `core.utils.get_recent_contributors`, as a function of the requested
count and the fetch/parse outcome.  Any error raised while fetching or
cleaning is caught by the two trailing handlers, which return `[]`.  (The
function performs exactly one fetch: its single `NetOutcome` argument.  The
count is taken non-negative, as at both call sites.) -/
def get_recent_contributors (count : Nat) (net : NetOutcome) : List PyDict :=
  match fetch_contributors_yaml net with
  | .error _ => []
  | .ok doc =>
      match doc with
      | .list contributors =>
          match cleanAll contributors with
          | .error _ => []
          | .ok cleaned => (List.insertionSort contribGe cleaned).take count
      | _ => []

/-- `core.utils.generate_github_avatar_url` (the f-string applies `str` to
its argument). -/
def generate_github_avatar_url (github_image_id : Val) : String :=
  "https://avatars.githubusercontent.com/u/" ++ pyStr github_image_id
    ++ "?s=400&v=4"

/-- `core.utils.generate_github_profile_url`. -/
def generate_github_profile_url (github_username : Val) : String :=
  "https://github.com/" ++ pyStr github_username

/-! ### The packages listing (not under `src/`) -/

/-- Modelled from the spec: `core.utils.get_recent_packages` is imported by
`core.views` and exercised by `core.tests`, but its definition (together
with `fetch_packages_yaml` and `PackageDataError`) is not under `src/`.
Following the spec's "merges externally-hosted YAML contributor/package
listings" and the unit tests (`PackageYAMLParsingTests`), the packages
fetcher mirrors `fetch_contributors_yaml`: it returns the parsed document
when it is a list and raises `PackageDataError` (carrying a classifying
message) otherwise. -/
def fetch_packages_yaml (net : NetOutcome) : Except String Val :=
  match net with
  | .ok doc =>
      match doc with
      | .list xs => .ok (.list xs)
      | _ => .error ("Unexpected error: YAML data should be a list of packages")
  | .urlError msg => .error ("Network error: " ++ msg)
  | .yamlError msg => .error ("YAML parsing error: " ++ msg)
  | .otherError msg => .error ("Unexpected error: " ++ msg)

/-- The `date_accepted` sort key of a package entry (the unit tests feed
ISO `YYYY-MM-DD` strings, whose lexicographic order is chronological). -/
def packageSortKey (p : Val) : String :=
  match p with
  | .dict d =>
      match pyLookup d ("date_accepted") with
      | Option.some (.str s) => s
      | _ => ""
  | _ => ""

/-- Packages sorted most recently accepted first: `a` may precede `b` when
its key is not smaller. -/
def packageGe (a b : Val) : Prop :=
  packageSortKey b ≤ packageSortKey a

instance : DecidableRel packageGe := fun a b =>
  inferInstanceAs (Decidable (packageSortKey b ≤ packageSortKey a))

/-- Modelled from the spec: `core.utils.get_recent_packages` (definition not
under `src/`; behavior from the spec and `core.tests.PackageYAMLParsingTests`):
on a successful fetch it returns the first `count` package entries sorted by
`date_accepted` descending, and on a `PackageDataError` or any other raised
exception it returns the empty list. -/
def get_recent_packages (count : Nat) (net : NetOutcome) : List Val :=
  match fetch_packages_yaml net with
  | .error _ => []
  | .ok doc =>
      match doc with
      | .list packages => (List.insertionSort packageGe packages).take count
      | _ => []

/-! ### The page models (`src/publications/models.py`) and the views -/

/-- `publications.models.BlogPage`, restricted to the fields the checked
views read: the page's primary key, its live (published) flag, its `date`
field and its tags (one entry per row of the `BlogPageTag` through table,
given by tag id). -/
structure BlogPage where
  pk : Nat
  live : Bool
  date : PDate
  tags : List Nat
deriving DecidableEq, Repr

/-- `publications.models.EventPage`, restricted to the fields the checked
views read: primary key, live flag, the `start_date` field and the tags. -/
structure EventPage where
  pk : Nat
  live : Bool
  start_date : PDate
  tags : List Nat
deriving DecidableEq, Repr

/-- `order_by('-date')`: `a` may precede `b` when its date is not smaller. -/
def blogDateGe (a b : BlogPage) : Prop := (PDate.leb b.date a.date) = true

instance : DecidableRel blogDateGe := fun _ _ =>
  inferInstanceAs (Decidable (_ = true))

/-- `order_by('-start_date')` for events. -/
def eventDateGe (a b : EventPage) : Prop :=
  (PDate.leb b.start_date a.start_date) = true

instance : DecidableRel eventDateGe := fun _ _ =>
  inferInstanceAs (Decidable (_ = true))

/-! ### `core.views.home` -/

/-- The contributor-enrichment loop body of `core.views.home`: add
`github_avatar_url` when `github_image_id` is truthy, then
`github_profile_url`, then `display_name` (the `name` value when truthy,
otherwise `"@"` followed by the username).  The `contributor['github_username']`
subscript raises `KeyError` when the key is absent. -/
def enrichContributor (c : PyDict) : Except PyErr PyDict :=
  let image_id := (pyLookup c ("github_image_id")).getD .none
  let c1 :=
    if pyTruthy image_id then
      pyInsert c ("github_avatar_url") (.str (generate_github_avatar_url image_id))
    else c
  match pyLookup c1 ("github_username") with
  | Option.none => .error .keyError
  | Option.some gu =>
      let c2 := pyInsert c1 ("github_profile_url")
        (.str (generate_github_profile_url gu))
      let nameVal := (pyLookup c2 ("name")).getD .none
      let display := if pyTruthy nameVal then nameVal
                     else .str ("@" ++ pyStr gu)
      .ok (pyInsert c2 ("display_name") display)

/-- The `for contributor in recent_contributors` loop of `home`, which
enriches each dictionary in place (so the context holds the same list,
enriched); a `KeyError` would escape the view. -/
def enrichAll (cs : List PyDict) : Except PyErr (List PyDict) :=
  match cs with
  | [] => .ok []
  | c :: rest =>
      match enrichContributor c with
      | .error e => .error e
      | .ok c' =>
          match enrichAll rest with
          | .error e => .error e
          | .ok rest' => .ok (c' :: rest')

/-- The data entries of the context `core.views.home` renders (the static
title/hero strings are omitted). -/
structure HomeContext where
  recent_contributors : List PyDict
  recent_packages : List Val
  recent_blog_posts : List BlogPage

/-- `core.views.home`, as a function of the two fetch outcomes and the
database's blog pages: enrich the 4 most recent contributors, fetch the 3
most recent packages, and query the 3 most recent live blog posts ordered
by date descending. -/
def home (netC netP : NetOutcome) (db : List BlogPage) :
    Except PyErr HomeContext :=
  match enrichAll (get_recent_contributors 4 netC) with
  | .error e => .error e
  | .ok recent_contributors =>
      .ok { recent_contributors := recent_contributors
            recent_packages := get_recent_packages 3 netP
            recent_blog_posts :=
              (List.insertionSort blogDateGe (db.filter (·.live))).take 3 }

/-! ### Pagination (`django.core.paginator`) and the index views -/

/-- `Paginator.num_pages` with the default `orphans=0` and
`allow_empty_first_page=True`: `ceil(max(1, count) / per_page)`. -/
def numPages (count per_page : Nat) : Nat :=
  (max 1 count + per_page - 1) / per_page

/-- `Paginator.page(number).object_list` for an integer page number already
known to be in range: the `number`-th chunk of `per_page` items. -/
def pageChunk (per_page : Nat) (items : List α) (number : Nat) : List α :=
  (items.drop ((number - 1) * per_page)).take per_page

/-- The `try: paginator.page(page) except PageNotAnInteger: ... except
EmptyPage: ...` pattern shared by `blog_index` and `events_index`:
`int(page)` failing (including a missing parameter, `int(None)` being a
`TypeError`) gives page 1, a page number below 1 or above `num_pages`
raises `EmptyPage` and gives the last page. -/
def paginateWith (per_page : Nat) (items : List α) (param : Option String) :
    List α :=
  let n := numPages items.length per_page
  match param with
  | Option.none => pageChunk per_page items 1
  | Option.some s =>
      match pyIntOfString s with
      | Option.none => pageChunk per_page items 1
      | Option.some number =>
          if number < 1 || number > (n : Int) then pageChunk per_page items n
          else pageChunk per_page items number.toNat

/-- The year-filtered, date-ordered queryset of `core.views.blog_index`:
live posts ordered by date descending, restricted to the given year exactly
when the `year` parameter is a non-empty digit string. -/
def blogListing (db : List BlogPage) (year : Option String) : List BlogPage :=
  let blog_posts := List.insertionSort blogDateGe (db.filter (·.live))
  match year with
  | Option.none => blog_posts
  | Option.some s =>
      if s ≠ "" && pyIsDigit s then
        blog_posts.filter (fun p => p.date.y = digitsToNat s.data)
      else blog_posts

/-- `core.views.blog_index`: the paginated `blog_posts` of the rendered
context (12 posts per page). -/
def blog_index (db : List BlogPage) (year page : Option String) :
    List BlogPage :=
  paginateWith 12 (blogListing db year) page

/-- The year-filtered queryset of `core.views.events_index`: live events
ordered by `start_date` descending, restricted to the given start year
exactly when the `year` parameter is a non-empty digit string. -/
def eventsListing (db : List EventPage) (year : Option String) :
    List EventPage :=
  let events := List.insertionSort eventDateGe (db.filter (·.live))
  match year with
  | Option.none => events
  | Option.some s =>
      if s ≠ "" && pyIsDigit s then
        events.filter (fun p => p.start_date.y = digitsToNat s.data)
      else events

/-- `core.views.events_index`: the paginated `events` of the rendered
context (15 events per page). -/
def events_index (db : List EventPage) (year page : Option String) :
    List EventPage :=
  paginateWith 15 (eventsListing db year) page

/-! ### Related content (`serve_blog_page` / `serve_event_page`) -/

/-- `annotate(same_tags=Count('pk'))` after `filter(tags__in=page_tags)`:
the number of the candidate's tag rows whose tag is one of the page's tags. -/
def sharedTagCount (pageTags : List Nat) (q : List Nat) : Nat :=
  (q.filter (fun t => pageTags.contains t)).length

/-- `order_by('-same_tags', '-date')`: `a` may precede `b` when its
(shared-tag count, date) pair is not lexicographically smaller. -/
def blogRelGe (pageTags : List Nat) (a b : BlogPage) : Prop :=
  (sharedTagCount pageTags b.tags < sharedTagCount pageTags a.tags
   || (sharedTagCount pageTags b.tags = sharedTagCount pageTags a.tags
       && PDate.leb b.date a.date)) = true

instance (pageTags : List Nat) : DecidableRel (blogRelGe pageTags) :=
  fun _ _ => inferInstanceAs (Decidable (_ = true))

/-- `order_by('-same_tags', '-start_date')` for events. -/
def eventRelGe (pageTags : List Nat) (a b : EventPage) : Prop :=
  (sharedTagCount pageTags b.tags < sharedTagCount pageTags a.tags
   || (sharedTagCount pageTags b.tags = sharedTagCount pageTags a.tags
       && PDate.leb b.start_date a.start_date)) = true

instance (pageTags : List Nat) : DecidableRel (eventRelGe pageTags) :=
  fun _ _ => inferInstanceAs (Decidable (_ = true))

/-- The related-posts selection of `core.views.serve_blog_page`: when the
page has tags, the up-to-3 other live posts sharing a tag, ordered by
shared-tag count then date, both descending; when the page has no tags or
no post shares one, the up-to-3 most recent other live posts. -/
def related_posts (db : List BlogPage) (page : BlogPage) : List BlogPage :=
  let page_tags := page.tags
  let related :=
    if page_tags.isEmpty then []
    else
      (List.insertionSort (blogRelGe page_tags)
        (db.filter (fun q =>
          q.live && q.pk ≠ page.pk
            && q.tags.any (fun t => page_tags.contains t)))).take 3
  if related.isEmpty then
    (List.insertionSort blogDateGe
      (db.filter (fun q => q.live && q.pk ≠ page.pk))).take 3
  else related

/-- The related-events selection of `core.views.serve_event_page`, with
`start_date` in place of `date`. -/
def related_events (db : List EventPage) (page : EventPage) : List EventPage :=
  let page_tags := page.tags
  let related :=
    if page_tags.isEmpty then []
    else
      (List.insertionSort (eventRelGe page_tags)
        (db.filter (fun q =>
          q.live && q.pk ≠ page.pk
            && q.tags.any (fun t => page_tags.contains t)))).take 3
  if related.isEmpty then
    (List.insertionSort eventDateGe
      (db.filter (fun q => q.live && q.pk ≠ page.pk))).take 3
  else related

/-! ### Helper lemmas -/

theorem pyLookup_append (l1 l2 : PyDict) (k : String) :
    pyLookup (l1 ++ l2) k =
      match pyLookup l1 k with
      | Option.some v => Option.some v
      | Option.none => pyLookup l2 k := by
  induction l1 with
  | nil => simp [pyLookup]
  | cons kv rest ih =>
      obtain ⟨k', v⟩ := kv
      by_cases h : k' = k <;> simp [pyLookup, h, ih]

theorem pyLookup_filterMap_keyed (fields : List String)
    (g : String → Option (String × Val))
    (hk : ∀ f kv, g f = Option.some kv → kv.1 = f) (k : String)
    (hnk : k ∉ fields) :
    pyLookup (fields.filterMap g) k = Option.none := by
  induction fields with
  | nil => rfl
  | cons f rest ih =>
      have hne : f ≠ k := fun h => hnk (h ▸ List.mem_cons_self f rest)
      have hrest : k ∉ rest := fun h => hnk (List.mem_cons_of_mem _ h)
      rw [List.filterMap_cons]
      cases hg : g f with
      | none => exact ih hrest
      | some kv =>
          obtain ⟨k1, v1⟩ := kv
          have h1 : k1 = f := hk f (k1, v1) hg
          simp [pyLookup, h1, hne, ih hrest]

theorem pyLookup_map_mem (fields : List String) (h : String → Val) (k : String)
    (hmem : k ∈ fields) :
    pyLookup (fields.map (fun f => (f, h f))) k = Option.some (h k) := by
  induction fields with
  | nil => cases hmem
  | cons f rest ih =>
      by_cases hf : f = k
      · subst hf; simp [pyLookup]
      · rcases List.mem_cons.1 hmem with h | h
        · exact absurd h.symm hf
        · simp [pyLookup, hf, ih h]

theorem pyLookup_pyInsert_self (d : PyDict) (k : String) (v : Val) :
    pyLookup (pyInsert d k v) k = Option.some v := by
  induction d with
  | nil => simp [pyInsert, pyLookup]
  | cons kv rest ih =>
      obtain ⟨k', v'⟩ := kv
      by_cases h : k' = k <;> simp [pyInsert, pyLookup, h, ih]

theorem pyLookup_pyInsert_ne (d : PyDict) (k : String) (v : Val) (k' : String)
    (h : k ≠ k') :
    pyLookup (pyInsert d k v) k' = pyLookup d k' := by
  induction d with
  | nil => simp [pyInsert, pyLookup, h]
  | cons kv rest ih =>
      obtain ⟨k0, v0⟩ := kv
      by_cases h0 : k0 = k
      · subst h0; simp [pyInsert, pyLookup, h]
      · simp [pyInsert, pyLookup, h0, ih]

theorem dropWhile_head_not {α : Type} (p : α → Bool) (l : List α) (a : α)
    (ha : (l.dropWhile p).head? = Option.some a) : p a = false := by
  have h := List.head?_dropWhile_not p l
  rw [ha] at h
  exact h

theorem dropWhile_of_head_not {α : Type} (p : α → Bool) (l : List α)
    (h : ∀ a, l.head? = Option.some a → p a = false) : l.dropWhile p = l := by
  cases l with
  | nil => rfl
  | cons a t => simp [List.dropWhile_cons, h a rfl]

/-- The character-list core of `pyStrip`. -/
def stripChars (l : List Char) : List Char :=
  ((l.dropWhile isPySpace).reverse.dropWhile isPySpace).reverse

theorem pyStrip_eq_stripChars (s : String) :
    pyStrip s = String.mk (stripChars s.data) := rfl

theorem stripChars_isPrefix (l : List Char) :
    stripChars l <+: l.dropWhile isPySpace := by
  have h1 : (l.dropWhile isPySpace).reverse.dropWhile isPySpace <:+
      (l.dropWhile isPySpace).reverse := List.dropWhile_suffix _
  have h2 : ((l.dropWhile isPySpace).reverse.dropWhile isPySpace).reverse <+:
      (l.dropWhile isPySpace).reverse.reverse := List.reverse_prefix.2 h1
  rw [List.reverse_reverse] at h2
  exact h2

theorem stripChars_head_not (l : List Char) (a : Char)
    (ha : (stripChars l).head? = Option.some a) : isPySpace a = false := by
  obtain ⟨t, ht⟩ := stripChars_isPrefix l
  cases hs : stripChars l with
  | nil => rw [hs] at ha; cases ha
  | cons b bs =>
      rw [hs] at ha ht
      have : (l.dropWhile isPySpace).head? = Option.some b := by
        rw [← ht]; rfl
      have hb := dropWhile_head_not isPySpace l b this
      cases ha
      exact hb

theorem stripChars_revhead_not (l : List Char) (a : Char)
    (ha : (stripChars l).reverse.head? = Option.some a) : isPySpace a = false := by
  rw [stripChars, List.reverse_reverse] at ha
  exact dropWhile_head_not isPySpace _ a ha

theorem stripChars_of_stripped (l : List Char)
    (h1 : ∀ a, l.head? = Option.some a → isPySpace a = false)
    (h2 : ∀ a, l.reverse.head? = Option.some a → isPySpace a = false) :
    stripChars l = l := by
  rw [stripChars, dropWhile_of_head_not isPySpace l h1,
      dropWhile_of_head_not isPySpace l.reverse h2, List.reverse_reverse]

theorem stripChars_idem (l : List Char) : stripChars (stripChars l) = stripChars l :=
  stripChars_of_stripped _ (stripChars_head_not l) (stripChars_revhead_not l)

theorem pyStrip_idem (s : String) : pyStrip (pyStrip s) = pyStrip s :=
  congrArg String.mk (stripChars_idem s.data)

theorem pairwise_take_mem {α : Type} {r : α → α → Prop} {l : List α}
    (h : List.Pairwise r l) (n : Nat) {x y : α} (hx : x ∈ l.take n)
    (hy : y ∈ l) (hny : y ∉ l.take n) : r x y := by
  have hsplit := List.take_append_drop n l
  have h' : List.Pairwise r (l.take n ++ l.drop n) := by rwa [hsplit]
  rw [List.pairwise_append] at h'
  have hyd : y ∈ l.drop n := by
    have : y ∈ l.take n ++ l.drop n := by rwa [hsplit]
    rcases List.mem_append.1 this with h1 | h1
    · exact absurd h1 hny
    · exact h1
  exact h'.2.2 x hx y hyd

theorem insertionSort_take_spec {α : Type} (r : α → α → Prop) [DecidableRel r]
    [IsTotal α r] [IsTrans α r] (l : List α) (n : Nat) :
    ((List.insertionSort r l).take n).length = min n l.length ∧
    (∀ x ∈ (List.insertionSort r l).take n, x ∈ l) ∧
    List.Pairwise r ((List.insertionSort r l).take n) ∧
    (∀ y ∈ l, y ∉ (List.insertionSort r l).take n →
      ∀ x ∈ (List.insertionSort r l).take n, r x y) := by
  have hperm := List.perm_insertionSort r l
  have hsorted : List.Pairwise r (List.insertionSort r l) :=
    List.sorted_insertionSort r l
  refine ⟨?_, ?_, ?_, ?_⟩
  · rw [List.length_take, List.length_insertionSort]
  · intro x hx
    exact hperm.mem_iff.1 ((List.take_sublist n _).subset hx)
  · exact hsorted.sublist (List.take_sublist n _)
  · intro y hy hny x hx
    exact pairwise_take_mem hsorted n hx (hperm.mem_iff.2 hy) hny

theorem PDate_leb_total (a b : PDate) : (PDate.leb a b || PDate.leb b a) = true := by
  obtain ⟨y1, m1, d1⟩ := a
  obtain ⟨y2, m2, d2⟩ := b
  simp only [PDate.leb, Bool.or_eq_true, Bool.and_eq_true, decide_eq_true_eq]
  omega

theorem PDate_leb_trans (a b c : PDate) (h1 : PDate.leb a b = true)
    (h2 : PDate.leb b c = true) : PDate.leb a c = true := by
  obtain ⟨y1, m1, d1⟩ := a
  obtain ⟨y2, m2, d2⟩ := b
  obtain ⟨y3, m3, d3⟩ := c
  simp only [PDate.leb, Bool.or_eq_true, Bool.and_eq_true, decide_eq_true_eq] at *
  omega

theorem keyLeb_total (a b : PDate × Int) : (keyLeb a b || keyLeb b a) = true := by
  obtain ⟨⟨y1, m1, d1⟩, i1⟩ := a
  obtain ⟨⟨y2, m2, d2⟩, i2⟩ := b
  simp only [keyLeb, PDate.ltb, Bool.or_eq_true, Bool.and_eq_true,
    decide_eq_true_eq, PDate.mk.injEq]
  omega

theorem keyLeb_trans (a b c : PDate × Int) (h1 : keyLeb a b = true)
    (h2 : keyLeb b c = true) : keyLeb a c = true := by
  obtain ⟨⟨y1, m1, d1⟩, i1⟩ := a
  obtain ⟨⟨y2, m2, d2⟩, i2⟩ := b
  obtain ⟨⟨y3, m3, d3⟩, i3⟩ := c
  simp only [keyLeb, PDate.ltb, Bool.or_eq_true, Bool.and_eq_true,
    decide_eq_true_eq, PDate.mk.injEq] at *
  omega

instance : IsTotal PyDict contribGe :=
  ⟨fun a b => by
    rcases Bool.or_eq_true_iff.1
      (keyLeb_total (contribSortKey b) (contribSortKey a)) with h | h
    · exact Or.inl h
    · exact Or.inr h⟩

instance : IsTrans PyDict contribGe :=
  ⟨fun _ _ _ h1 h2 => keyLeb_trans _ _ _ h2 h1⟩

instance : IsTotal BlogPage blogDateGe :=
  ⟨fun a b => by
    rcases Bool.or_eq_true_iff.1 (PDate_leb_total b.date a.date) with h | h
    · exact Or.inl h
    · exact Or.inr h⟩

instance : IsTrans BlogPage blogDateGe :=
  ⟨fun _ _ _ h1 h2 => PDate_leb_trans _ _ _ h2 h1⟩

instance : IsTotal EventPage eventDateGe :=
  ⟨fun a b => by
    rcases Bool.or_eq_true_iff.1
      (PDate_leb_total b.start_date a.start_date) with h | h
    · exact Or.inl h
    · exact Or.inr h⟩

instance : IsTrans EventPage eventDateGe :=
  ⟨fun _ _ _ h1 h2 => PDate_leb_trans _ _ _ h2 h1⟩

theorem relKey_total (n1 n2 : Nat) (a b : PDate)
    : ((n2 < n1 || (n2 = n1 && PDate.leb b a))
       || (n1 < n2 || (n1 = n2 && PDate.leb a b))) = true := by
  obtain ⟨y1, m1, d1⟩ := a
  obtain ⟨y2, m2, d2⟩ := b
  simp only [PDate.leb, Bool.or_eq_true, Bool.and_eq_true, decide_eq_true_eq]
  omega

theorem relKey_trans (n1 n2 n3 : Nat) (a b c : PDate)
    (h1 : (n2 < n1 || (n2 = n1 && PDate.leb b a)) = true)
    (h2 : (n3 < n2 || (n3 = n2 && PDate.leb c b)) = true) :
    (n3 < n1 || (n3 = n1 && PDate.leb c a)) = true := by
  obtain ⟨y1, m1, d1⟩ := a
  obtain ⟨y2, m2, d2⟩ := b
  obtain ⟨y3, m3, d3⟩ := c
  simp only [PDate.leb, Bool.or_eq_true, Bool.and_eq_true, decide_eq_true_eq] at *
  omega

instance (pageTags : List Nat) : IsTotal BlogPage (blogRelGe pageTags) :=
  ⟨fun a b => by
    rcases Bool.or_eq_true_iff.1
      (relKey_total (sharedTagCount pageTags a.tags)
        (sharedTagCount pageTags b.tags) a.date b.date) with h | h
    · exact Or.inl h
    · exact Or.inr h⟩

instance (pageTags : List Nat) : IsTrans BlogPage (blogRelGe pageTags) :=
  ⟨fun _ _ _ h1 h2 => relKey_trans _ _ _ _ _ _ h1 h2⟩

instance (pageTags : List Nat) : IsTotal EventPage (eventRelGe pageTags) :=
  ⟨fun a b => by
    rcases Bool.or_eq_true_iff.1
      (relKey_total (sharedTagCount pageTags a.tags)
        (sharedTagCount pageTags b.tags) a.start_date b.start_date) with h | h
    · exact Or.inl h
    · exact Or.inr h⟩

instance (pageTags : List Nat) : IsTrans EventPage (eventRelGe pageTags) :=
  ⟨fun _ _ _ h1 h2 => relKey_trans _ _ _ _ _ _ h1 h2⟩

instance : IsTotal Val packageGe :=
  ⟨fun a b => le_total (packageSortKey b) (packageSortKey a)⟩

instance : IsTrans Val packageGe :=
  ⟨fun _ _ _ h1 h2 => le_trans h2 h1⟩

/-! ### Claim theorems -/

/-- C3: `fetch_contributors_yaml` returns the parsed YAML document exactly
when that document is a list, and raises `ContributorDataError` (modelled
as `Except.error` carrying the exception's message) in every other case —
on a network failure (`URLError`), on a YAML parse failure, when the parsed
document is not a list, and on any other unexpected exception — so the
function never returns a non-list value. -/
theorem fetch_contributors_yaml_spec :
    (∀ xs, fetch_contributors_yaml (.ok (.list xs)) = .ok (.list xs)) ∧
    (∀ doc, (∀ xs, doc ≠ Val.list xs) →
       fetch_contributors_yaml (.ok doc)
         = .error ("Unexpected error: YAML data should be a list of contributors")) ∧
    (∀ msg, fetch_contributors_yaml (.urlError msg)
       = .error (("Network error: ") ++ msg)) ∧
    (∀ msg, fetch_contributors_yaml (.yamlError msg)
       = .error (("YAML parsing error: ") ++ msg)) ∧
    (∀ msg, fetch_contributors_yaml (.otherError msg)
       = .error (("Unexpected error: ") ++ msg)) ∧
    (∀ net v, fetch_contributors_yaml net = .ok v → ∃ xs, v = Val.list xs) := by
  refine ⟨fun _ => rfl, ?_, fun _ => rfl, fun _ => rfl, fun _ => rfl, ?_⟩
  · intro doc h
    cases doc <;> first | rfl | exact absurd rfl (h _)
  · intro net v h
    cases net with
    | ok doc =>
        cases doc <;>
          first
          | exact Except.noConfusion h
          | exact ⟨_, (Except.ok.inj h).symm⟩
    | urlError msg => exact Except.noConfusion h
    | yamlError msg => exact Except.noConfusion h
    | otherError msg => exact Except.noConfusion h

/-- Witness for the C3 theorem at concrete inputs: a dictionary document is
rejected, and a value the function returns is a list. -/
theorem fetch_contributors_yaml_spec_witness :
    fetch_contributors_yaml (.ok (.dict []))
      = .error ("Unexpected error: YAML data should be a list of contributors") ∧
    (∃ xs, Val.list [Val.int 1] = Val.list xs) :=
  ⟨fetch_contributors_yaml_spec.2.1 (.dict []) (fun _ h => Val.noConfusion h),
   fetch_contributors_yaml_spec.2.2.2.2.2 (.ok (.list [Val.int 1]))
     (.list [Val.int 1]) (fetch_contributors_yaml_spec.1 [Val.int 1])⟩

/-- C2: whenever fetching or parsing the remote contributors YAML fails —
`fetch_contributors_yaml` raising a `ContributorDataError`, or any other
exception escaping the cleaning loop — `get_recent_contributors` returns
the empty list; it never propagates the exception.  (The function consumes
exactly one fetch outcome, so no retry is possible in the model.) -/
theorem get_recent_contributors_error_spec :
    (∀ count net msg, fetch_contributors_yaml net = .error msg →
       get_recent_contributors count net = []) ∧
    (∀ count xs e, cleanAll xs = .error e →
       get_recent_contributors count (.ok (.list xs)) = []) := by
  constructor
  · intro count net msg h
    unfold get_recent_contributors
    rw [h]
  · intro count xs e h
    unfold get_recent_contributors
    simp only [fetch_contributors_yaml]
    rw [h]

/-- Witness for the C2 theorem: a network error and a cleaning `TypeError`
(from a non-dictionary entry) both yield the empty list. -/
theorem get_recent_contributors_error_spec_witness :
    get_recent_contributors 4 (.urlError ("boom")) = [] ∧
    get_recent_contributors 4 (.ok (.list [Val.int 7])) = [] :=
  ⟨get_recent_contributors_error_spec.1 4 (.urlError ("boom"))
     (("Network error: ") ++ "boom") rfl,
   get_recent_contributors_error_spec.2 4 [Val.int 7] .typeError rfl⟩

/-- C8: `parse_contributor_date` returns `None` for every falsy input and
for every string on which none of the four formats `%Y-%m-%d`, `%Y/%m/%d`,
`%m/%d/%Y`, `%d/%m/%Y` succeeds (after the function's own `str`/`strip`
normalisation); otherwise it returns the datetime produced by the first
matching format in that fixed order, so the ambiguous slash date
`'01/02/2024'` is always read month-first (both slash formats match it, and
`%m/%d/%Y` comes first). -/
theorem parse_contributor_date_spec :
    (∀ v, pyTruthy v = false → parse_contributor_date v = Option.none) ∧
    (∀ s : String, s ≠ "" → parse_contributor_date (.str s)
        = dateFormats.findSome? (fun fmt => strptimeDate fmt (pyStrip s))) ∧
    parse_contributor_date (.str ("01/02/2024")) = Option.some ⟨2024, 1, 2⟩ ∧
    strptimeDate fmtMDY ("01/02/2024") = Option.some ⟨2024, 1, 2⟩ ∧
    strptimeDate fmtDMY ("01/02/2024") = Option.some ⟨2024, 2, 1⟩ := by
  refine ⟨?_, ?_, ?_, by decide, by decide⟩
  · intro v h
    simp [parse_contributor_date, h]
  · intro s h
    have ht : pyTruthy (.str s) = true := by
      simp [pyTruthy, h]
    simp only [parse_contributor_date, ht, Bool.not_true, Bool.false_eq_true,
      if_false, pyStr]
  · simp only [parse_contributor_date, pyStr]
    decide

/-- Witness for the C8 theorem: `None` (falsy) parses to `None`, and a
garbage string, matched by no format, parses to `None`. -/
theorem parse_contributor_date_spec_witness :
    parse_contributor_date Val.none = Option.none ∧
    parse_contributor_date (.str ("soon")) = Option.none :=
  ⟨parse_contributor_date_spec.1 Val.none rfl,
   by
     rw [parse_contributor_date_spec.2.1 ("soon") (by decide)]
     decide⟩

theorem mem_blogListing_none (db : List BlogPage) (p : BlogPage) :
    p ∈ blogListing db Option.none ↔ p ∈ db ∧ p.live = true := by
  rw [blogListing]
  rw [(List.perm_insertionSort blogDateGe _).mem_iff, List.mem_filter]

theorem mem_eventsListing_none (db : List EventPage) (p : EventPage) :
    p ∈ eventsListing db Option.none ↔ p ∈ db ∧ p.live = true := by
  rw [eventsListing]
  rw [(List.perm_insertionSort eventDateGe _).mem_iff, List.mem_filter]

/-- C6: in `blog_index` and `events_index` the year filter is applied
exactly when the `year` query parameter is a non-empty digit string: the
listing is then restricted to the live posts whose `date` (for events,
`start_date`) falls in that year; for every other value of the parameter,
including a missing one, the listing is the unfiltered live listing. -/
theorem year_filter_spec :
    (∀ db s, s ≠ "" → pyIsDigit s = true →
       blogListing db (Option.some s)
         = (blogListing db Option.none).filter
             (fun p => p.date.y = digitsToNat s.data)) ∧
    (∀ db s, s = "" ∨ pyIsDigit s = false →
       blogListing db (Option.some s) = blogListing db Option.none) ∧
    (∀ db s, s ≠ "" → pyIsDigit s = true →
       ∀ p : BlogPage, p ∈ blogListing db (Option.some s) ↔
         p ∈ db ∧ p.live = true ∧ p.date.y = digitsToNat s.data) ∧
    (∀ db s, s ≠ "" → pyIsDigit s = true →
       eventsListing db (Option.some s)
         = (eventsListing db Option.none).filter
             (fun p => p.start_date.y = digitsToNat s.data)) ∧
    (∀ db s, s = "" ∨ pyIsDigit s = false →
       eventsListing db (Option.some s) = eventsListing db Option.none) ∧
    (∀ db s, s ≠ "" → pyIsDigit s = true →
       ∀ p : EventPage, p ∈ eventsListing db (Option.some s) ↔
         p ∈ db ∧ p.live = true ∧ p.start_date.y = digitsToNat s.data) := by
  have hb : ∀ db s, s ≠ "" → pyIsDigit s = true →
      blogListing db (Option.some s)
        = (blogListing db Option.none).filter
            (fun p => p.date.y = digitsToNat s.data) := by
    intro db s h1 h2
    simp [blogListing, h1, h2]
  have he : ∀ db s, s ≠ "" → pyIsDigit s = true →
      eventsListing db (Option.some s)
        = (eventsListing db Option.none).filter
            (fun p => p.start_date.y = digitsToNat s.data) := by
    intro db s h1 h2
    simp [eventsListing, h1, h2]
  refine ⟨hb, ?_, ?_, he, ?_, ?_⟩
  · intro db s h
    rcases h with h | h <;> simp [blogListing, h]
  · intro db s h1 h2 p
    rw [hb db s h1 h2, List.mem_filter, mem_blogListing_none]
    simp [and_assoc]
  · intro db s h
    rcases h with h | h <;> simp [eventsListing, h]
  · intro db s h1 h2 p
    rw [he db s h1 h2, List.mem_filter, mem_eventsListing_none]
    simp [and_assoc]

/-- Witness for the C6 theorem: with a one-post database, the filter keeps
a 2024 post for `year=2024` and the listing is unfiltered for `year=x24`. -/
theorem year_filter_spec_witness :
    ((⟨1, true, ⟨2024, 5, 1⟩, []⟩ : BlogPage) ∈
        blogListing [⟨1, true, ⟨2024, 5, 1⟩, []⟩] (Option.some ("2024")) ↔
      (⟨1, true, ⟨2024, 5, 1⟩, []⟩ : BlogPage) ∈
          ([⟨1, true, ⟨2024, 5, 1⟩, []⟩] : List BlogPage) ∧
        (⟨1, true, ⟨2024, 5, 1⟩, []⟩ : BlogPage).live = true ∧
        (⟨1, true, ⟨2024, 5, 1⟩, []⟩ : BlogPage).date.y
          = digitsToNat ("2024").data) ∧
    eventsListing [(⟨1, true, ⟨2024, 5, 1⟩, []⟩ : EventPage)] (Option.some ("x24"))
      = eventsListing [(⟨1, true, ⟨2024, 5, 1⟩, []⟩ : EventPage)] Option.none :=
  ⟨year_filter_spec.2.2.1 [⟨1, true, ⟨2024, 5, 1⟩, []⟩] ("2024") (by decide)
     (by decide) ⟨1, true, ⟨2024, 5, 1⟩, []⟩,
   year_filter_spec.2.2.2.2.1 [⟨1, true, ⟨2024, 5, 1⟩, []⟩] ("x24")
     (Or.inr (by decide))⟩

theorem pageChunk_length_le {α : Type} (per : Nat) (items : List α) (n : Nat) :
    (pageChunk per items n).length ≤ per := by
  simp only [pageChunk, List.length_take]
  exact min_le_left _ _

theorem paginateWith_cases {α : Type} (per : Nat) (items : List α)
    (param : Option String) :
    ((param = Option.none ∨
        (∃ s, param = Option.some s ∧ pyIntOfString s = Option.none)) →
      paginateWith per items param = items.take per) ∧
    (∀ s k, param = Option.some s → pyIntOfString s = Option.some k →
      (k < 1 ∨ k > (numPages items.length per : Int)) →
      paginateWith per items param
        = pageChunk per items (numPages items.length per)) ∧
    (∀ s k, param = Option.some s → pyIntOfString s = Option.some k →
      1 ≤ k → k ≤ (numPages items.length per : Int) →
      paginateWith per items param = pageChunk per items k.toNat) := by
  refine ⟨?_, ?_, ?_⟩
  · intro h
    rcases h with h | ⟨s, h, hs⟩
    · subst h
      simp [paginateWith, pageChunk]
    · subst h
      simp [paginateWith, hs, pageChunk]
  · intro s k hp hk hrange
    subst hp
    have : (k < 1 || k > (numPages items.length per : Int)) = true := by
      rcases hrange with h | h <;> simp [h]
    simp [paginateWith, hk, this]
  · intro s k hp hk h1 h2
    subst hp
    have hc : (k < 1 || k > (numPages items.length per : Int)) = false := by
      simp only [Bool.or_eq_false_iff, decide_eq_false_iff_not, not_lt]
      omega
    simp [paginateWith, hk, hc]

/-- C5: `blog_index` paginates at 12 posts per page and `events_index` at
15 events per page (no rendered page ever holds more); a `page` query
parameter that is not an integer (including a missing one) yields the first
page, an integer page number out of range yields the last page, and an
in-range number the corresponding chunk — the views never raise a
pagination error. -/
theorem pagination_spec :
    (∀ db year page, (blog_index db year page).length ≤ 12) ∧
    (∀ db year page, (page = Option.none ∨
        (∃ s, page = Option.some s ∧ pyIntOfString s = Option.none)) →
      blog_index db year page = (blogListing db year).take 12) ∧
    (∀ db year s k, pyIntOfString s = Option.some k →
      (k < 1 ∨ k > (numPages (blogListing db year).length 12 : Int)) →
      blog_index db year (Option.some s)
        = pageChunk 12 (blogListing db year)
            (numPages (blogListing db year).length 12)) ∧
    (∀ db year s k, pyIntOfString s = Option.some k →
      1 ≤ k → k ≤ (numPages (blogListing db year).length 12 : Int) →
      blog_index db year (Option.some s)
        = pageChunk 12 (blogListing db year) k.toNat) ∧
    (∀ db year page, (events_index db year page).length ≤ 15) ∧
    (∀ db year page, (page = Option.none ∨
        (∃ s, page = Option.some s ∧ pyIntOfString s = Option.none)) →
      events_index db year page = (eventsListing db year).take 15) ∧
    (∀ db year s k, pyIntOfString s = Option.some k →
      (k < 1 ∨ k > (numPages (eventsListing db year).length 15 : Int)) →
      events_index db year (Option.some s)
        = pageChunk 15 (eventsListing db year)
            (numPages (eventsListing db year).length 15)) ∧
    (∀ db year s k, pyIntOfString s = Option.some k →
      1 ≤ k → k ≤ (numPages (eventsListing db year).length 15 : Int) →
      events_index db year (Option.some s)
        = pageChunk 15 (eventsListing db year) k.toNat) := by
  refine ⟨?_, ?_, ?_, ?_, ?_, ?_, ?_, ?_⟩
  · intro db year page
    rw [blog_index]
    rcases page with _ | s
    · simpa [paginateWith, pageChunk] using
        pageChunk_length_le 12 (blogListing db year) 1
    · rcases hk : pyIntOfString s with _ | k
      · simpa [paginateWith, hk, pageChunk] using
          pageChunk_length_le 12 (blogListing db year) 1
      · by_cases hc :
          (k < 1 || k > (numPages (blogListing db year).length 12 : Int)) = true
        · simpa [paginateWith, hk, hc] using
            pageChunk_length_le 12 (blogListing db year) _
        · simp only [Bool.not_eq_true] at hc
          simpa [paginateWith, hk, hc] using
            pageChunk_length_le 12 (blogListing db year) k.toNat
  · intro db year page h
    exact (paginateWith_cases 12 (blogListing db year) page).1 h
  · intro db year s k hk hr
    exact (paginateWith_cases 12 (blogListing db year) (Option.some s)).2.1
      s k rfl hk hr
  · intro db year s k hk h1 h2
    exact (paginateWith_cases 12 (blogListing db year) (Option.some s)).2.2
      s k rfl hk h1 h2
  · intro db year page
    rw [events_index]
    rcases page with _ | s
    · simpa [paginateWith, pageChunk] using
        pageChunk_length_le 15 (eventsListing db year) 1
    · rcases hk : pyIntOfString s with _ | k
      · simpa [paginateWith, hk, pageChunk] using
          pageChunk_length_le 15 (eventsListing db year) 1
      · by_cases hc :
          (k < 1 || k > (numPages (eventsListing db year).length 15 : Int)) = true
        · simpa [paginateWith, hk, hc] using
            pageChunk_length_le 15 (eventsListing db year) _
        · simp only [Bool.not_eq_true] at hc
          simpa [paginateWith, hk, hc] using
            pageChunk_length_le 15 (eventsListing db year) k.toNat
  · intro db year page h
    exact (paginateWith_cases 15 (eventsListing db year) page).1 h
  · intro db year s k hk hr
    exact (paginateWith_cases 15 (eventsListing db year) (Option.some s)).2.1
      s k rfl hk hr
  · intro db year s k hk h1 h2
    exact (paginateWith_cases 15 (eventsListing db year) (Option.some s)).2.2
      s k rfl hk h1 h2

/-- Witness for the C5 theorem: with an empty database, a garbage page
parameter yields the first page and an out-of-range page number the last. -/
theorem pagination_spec_witness :
    blog_index [] Option.none (Option.some ("abc"))
      = (blogListing [] Option.none).take 12 ∧
    events_index [] Option.none (Option.some ("99"))
      = pageChunk 15 (eventsListing [] Option.none)
          (numPages (eventsListing [] Option.none).length 15) :=
  ⟨pagination_spec.2.1 [] Option.none (Option.some ("abc"))
     (Or.inr ⟨("abc"), rfl, by decide⟩),
   pagination_spec.2.2.2.2.2.2.1 [] Option.none ("99") 99 (by decide)
     (Or.inr (by decide))⟩

theorem related_posts_overlap_case (db : List BlogPage) (page : BlogPage)
    (h1 : page.tags ≠ [])
    (h2 : ∃ q ∈ db, q.live = true ∧ q.pk ≠ page.pk ∧
       q.tags.any (fun t => page.tags.contains t) = true) :
    related_posts db page
      = (List.insertionSort (blogRelGe page.tags)
          (db.filter (fun q =>
            q.live && q.pk ≠ page.pk
              && q.tags.any (fun t => page.tags.contains t)))).take 3 := by
  have htags : page.tags.isEmpty = false := by
    cases ht : page.tags with
    | nil => exact absurd ht h1
    | cons a t => rfl
  obtain ⟨q, hq, hlive, hpk, hshare⟩ := h2
  have hqL : q ∈ db.filter (fun q =>
      q.live && q.pk ≠ page.pk
        && q.tags.any (fun t => page.tags.contains t)) := by
    rw [List.mem_filter]
    refine ⟨hq, ?_⟩
    simp only [Bool.and_eq_true, decide_eq_true_eq]
    exact ⟨⟨hlive, hpk⟩, hshare⟩
  have hLpos : 0 < (db.filter (fun q =>
      q.live && q.pk ≠ page.pk
        && q.tags.any (fun t => page.tags.contains t))).length :=
    List.length_pos.2 (List.ne_nil_of_mem hqL)
  have htake : 0 < ((List.insertionSort (blogRelGe page.tags)
      (db.filter (fun q =>
        q.live && q.pk ≠ page.pk
          && q.tags.any (fun t => page.tags.contains t)))).take 3).length := by
    rw [List.length_take, List.length_insertionSort]
    omega
  have hne : ((List.insertionSort (blogRelGe page.tags)
      (db.filter (fun q =>
        q.live && q.pk ≠ page.pk
          && q.tags.any (fun t => page.tags.contains t)))).take 3).isEmpty
        = false := by
    cases he : (List.insertionSort (blogRelGe page.tags)
      (db.filter (fun q =>
        q.live && q.pk ≠ page.pk
          && q.tags.any (fun t => page.tags.contains t)))).take 3 with
    | nil => rw [he] at htake; cases htake
    | cons a t => rfl
  simp only [related_posts, htags, Bool.false_eq_true, if_false, hne]

theorem related_posts_fallback_case (db : List BlogPage) (page : BlogPage)
    (h : page.tags = [] ∨
       ∀ q ∈ db, ¬(q.live = true ∧ q.pk ≠ page.pk ∧
          q.tags.any (fun t => page.tags.contains t) = true)) :
    related_posts db page
      = (List.insertionSort blogDateGe
          (db.filter (fun q => q.live && q.pk ≠ page.pk))).take 3 := by
  rcases h with h | h
  · simp only [related_posts, h]
    rfl
  · have hL : db.filter (fun q =>
        q.live && q.pk ≠ page.pk
          && q.tags.any (fun t => page.tags.contains t)) = [] := by
      rw [List.filter_eq_nil_iff]
      intro q hq
      intro hcond
      simp only [Bool.and_eq_true, decide_eq_true_eq] at hcond
      exact h q hq ⟨hcond.1.1, hcond.1.2, hcond.2⟩
    cases htags : page.tags.isEmpty with
    | true => simp only [related_posts, htags, if_true, List.isEmpty_nil]
    | false =>
        simp only [related_posts, htags, Bool.false_eq_true, if_false, hL]
        rfl

theorem related_events_overlap_case (db : List EventPage) (page : EventPage)
    (h1 : page.tags ≠ [])
    (h2 : ∃ q ∈ db, q.live = true ∧ q.pk ≠ page.pk ∧
       q.tags.any (fun t => page.tags.contains t) = true) :
    related_events db page
      = (List.insertionSort (eventRelGe page.tags)
          (db.filter (fun q =>
            q.live && q.pk ≠ page.pk
              && q.tags.any (fun t => page.tags.contains t)))).take 3 := by
  have htags : page.tags.isEmpty = false := by
    cases ht : page.tags with
    | nil => exact absurd ht h1
    | cons a t => rfl
  obtain ⟨q, hq, hlive, hpk, hshare⟩ := h2
  have hqL : q ∈ db.filter (fun q =>
      q.live && q.pk ≠ page.pk
        && q.tags.any (fun t => page.tags.contains t)) := by
    rw [List.mem_filter]
    refine ⟨hq, ?_⟩
    simp only [Bool.and_eq_true, decide_eq_true_eq]
    exact ⟨⟨hlive, hpk⟩, hshare⟩
  have htake : 0 < ((List.insertionSort (eventRelGe page.tags)
      (db.filter (fun q =>
        q.live && q.pk ≠ page.pk
          && q.tags.any (fun t => page.tags.contains t)))).take 3).length := by
    rw [List.length_take, List.length_insertionSort]
    have := List.length_pos.2 (List.ne_nil_of_mem hqL)
    omega
  have hne : ((List.insertionSort (eventRelGe page.tags)
      (db.filter (fun q =>
        q.live && q.pk ≠ page.pk
          && q.tags.any (fun t => page.tags.contains t)))).take 3).isEmpty
        = false := by
    cases he : (List.insertionSort (eventRelGe page.tags)
      (db.filter (fun q =>
        q.live && q.pk ≠ page.pk
          && q.tags.any (fun t => page.tags.contains t)))).take 3 with
    | nil => rw [he] at htake; cases htake
    | cons a t => rfl
  simp only [related_events, htags, Bool.false_eq_true, if_false, hne]

theorem related_events_fallback_case (db : List EventPage) (page : EventPage)
    (h : page.tags = [] ∨
       ∀ q ∈ db, ¬(q.live = true ∧ q.pk ≠ page.pk ∧
          q.tags.any (fun t => page.tags.contains t) = true)) :
    related_events db page
      = (List.insertionSort eventDateGe
          (db.filter (fun q => q.live && q.pk ≠ page.pk))).take 3 := by
  rcases h with h | h
  · simp only [related_events, h]
    rfl
  · have hL : db.filter (fun q =>
        q.live && q.pk ≠ page.pk
          && q.tags.any (fun t => page.tags.contains t)) = [] := by
      rw [List.filter_eq_nil_iff]
      intro q hq
      intro hcond
      simp only [Bool.and_eq_true, decide_eq_true_eq] at hcond
      exact h q hq ⟨hcond.1.1, hcond.1.2, hcond.2⟩
    cases htags : page.tags.isEmpty with
    | true => simp only [related_events, htags, if_true, List.isEmpty_nil]
    | false =>
        simp only [related_events, htags, Bool.false_eq_true, if_false, hL]
        rfl

/-- C4: for every live blog page served by `serve_blog_page`, if the page
has at least one tag and at least one other live post shares a tag with it,
its related posts are up to 3 (exactly `min 3` of the number of candidates)
other live posts sharing at least one tag, ordered by number of shared tags
descending and then by date descending; otherwise its related posts are the
up-to-3 most recent other live posts by date.  The same selection holds for
`serve_event_page` with `start_date` in place of `date`. -/
theorem related_content_spec :
    (∀ (db : List BlogPage) (page : BlogPage), page.live = true →
      page.tags ≠ [] →
      (∃ q ∈ db, q.live = true ∧ q.pk ≠ page.pk ∧
         q.tags.any (fun t => page.tags.contains t) = true) →
      (related_posts db page).length
          = min 3 (db.filter (fun q =>
              q.live && q.pk ≠ page.pk
                && q.tags.any (fun t => page.tags.contains t))).length ∧
      (∀ r ∈ related_posts db page, r ∈ db ∧ r.live = true ∧ r.pk ≠ page.pk ∧
         r.tags.any (fun t => page.tags.contains t) = true) ∧
      List.Pairwise (blogRelGe page.tags) (related_posts db page)) ∧
    (∀ (db : List BlogPage) (page : BlogPage), page.live = true →
      (page.tags = [] ∨
       ∀ q ∈ db, ¬(q.live = true ∧ q.pk ≠ page.pk ∧
          q.tags.any (fun t => page.tags.contains t) = true)) →
      (related_posts db page).length
          = min 3 (db.filter (fun q => q.live && q.pk ≠ page.pk)).length ∧
      (∀ r ∈ related_posts db page, r ∈ db ∧ r.live = true ∧ r.pk ≠ page.pk) ∧
      List.Pairwise blogDateGe (related_posts db page) ∧
      (∀ q ∈ db, q.live = true → q.pk ≠ page.pk → q ∉ related_posts db page →
        ∀ r ∈ related_posts db page, PDate.leb q.date r.date = true)) ∧
    (∀ (db : List EventPage) (page : EventPage), page.live = true →
      page.tags ≠ [] →
      (∃ q ∈ db, q.live = true ∧ q.pk ≠ page.pk ∧
         q.tags.any (fun t => page.tags.contains t) = true) →
      (related_events db page).length
          = min 3 (db.filter (fun q =>
              q.live && q.pk ≠ page.pk
                && q.tags.any (fun t => page.tags.contains t))).length ∧
      (∀ r ∈ related_events db page, r ∈ db ∧ r.live = true ∧ r.pk ≠ page.pk ∧
         r.tags.any (fun t => page.tags.contains t) = true) ∧
      List.Pairwise (eventRelGe page.tags) (related_events db page)) ∧
    (∀ (db : List EventPage) (page : EventPage), page.live = true →
      (page.tags = [] ∨
       ∀ q ∈ db, ¬(q.live = true ∧ q.pk ≠ page.pk ∧
          q.tags.any (fun t => page.tags.contains t) = true)) →
      (related_events db page).length
          = min 3 (db.filter (fun q => q.live && q.pk ≠ page.pk)).length ∧
      (∀ r ∈ related_events db page, r ∈ db ∧ r.live = true ∧ r.pk ≠ page.pk) ∧
      List.Pairwise eventDateGe (related_events db page) ∧
      (∀ q ∈ db, q.live = true → q.pk ≠ page.pk → q ∉ related_events db page →
        ∀ r ∈ related_events db page, PDate.leb q.start_date r.start_date
          = true)) := by
  refine ⟨?_, ?_, ?_, ?_⟩
  · intro db page _ h1 h2
    rw [related_posts_overlap_case db page h1 h2]
    have hs := insertionSort_take_spec (blogRelGe page.tags)
      (db.filter (fun q =>
        q.live && q.pk ≠ page.pk
          && q.tags.any (fun t => page.tags.contains t))) 3
    refine ⟨hs.1, ?_, hs.2.2.1⟩
    intro r hr
    have := hs.2.1 r hr
    rw [List.mem_filter] at this
    have hcond := this.2
    simp only [Bool.and_eq_true, decide_eq_true_eq] at hcond
    exact ⟨this.1, hcond.1.1, hcond.1.2, hcond.2⟩
  · intro db page _ h
    rw [related_posts_fallback_case db page h]
    have hs := insertionSort_take_spec blogDateGe
      (db.filter (fun q => q.live && q.pk ≠ page.pk)) 3
    refine ⟨hs.1, ?_, hs.2.2.1, ?_⟩
    · intro r hr
      have := hs.2.1 r hr
      rw [List.mem_filter] at this
      have hcond := this.2
      simp only [Bool.and_eq_true, decide_eq_true_eq] at hcond
      exact ⟨this.1, hcond.1, hcond.2⟩
    · intro q hq hlive hpk hnot r hr
      have hqf : q ∈ db.filter (fun q => q.live && q.pk ≠ page.pk) := by
        rw [List.mem_filter]
        refine ⟨hq, ?_⟩
        simp only [Bool.and_eq_true, decide_eq_true_eq]
        exact ⟨hlive, hpk⟩
      exact hs.2.2.2 q hqf hnot r hr
  · intro db page _ h1 h2
    rw [related_events_overlap_case db page h1 h2]
    have hs := insertionSort_take_spec (eventRelGe page.tags)
      (db.filter (fun q =>
        q.live && q.pk ≠ page.pk
          && q.tags.any (fun t => page.tags.contains t))) 3
    refine ⟨hs.1, ?_, hs.2.2.1⟩
    intro r hr
    have := hs.2.1 r hr
    rw [List.mem_filter] at this
    have hcond := this.2
    simp only [Bool.and_eq_true, decide_eq_true_eq] at hcond
    exact ⟨this.1, hcond.1.1, hcond.1.2, hcond.2⟩
  · intro db page _ h
    rw [related_events_fallback_case db page h]
    have hs := insertionSort_take_spec eventDateGe
      (db.filter (fun q => q.live && q.pk ≠ page.pk)) 3
    refine ⟨hs.1, ?_, hs.2.2.1, ?_⟩
    · intro r hr
      have := hs.2.1 r hr
      rw [List.mem_filter] at this
      have hcond := this.2
      simp only [Bool.and_eq_true, decide_eq_true_eq] at hcond
      exact ⟨this.1, hcond.1, hcond.2⟩
    · intro q hq hlive hpk hnot r hr
      have hqf : q ∈ db.filter (fun q => q.live && q.pk ≠ page.pk) := by
        rw [List.mem_filter]
        refine ⟨hq, ?_⟩
        simp only [Bool.and_eq_true, decide_eq_true_eq]
        exact ⟨hlive, hpk⟩
      exact hs.2.2.2 q hqf hnot r hr

/-- A five-post blog database exercising the tag-overlap selection. -/
def exBlogDb : List BlogPage :=
  [⟨1, true, ⟨2024, 1, 1⟩, [10, 11]⟩, ⟨2, true, ⟨2024, 2, 1⟩, [10]⟩,
   ⟨3, true, ⟨2024, 3, 1⟩, [11, 12]⟩, ⟨4, true, ⟨2024, 4, 1⟩, [99]⟩,
   ⟨5, false, ⟨2024, 5, 1⟩, [10, 11]⟩]

/-- The tagged page whose related posts are selected by overlap. -/
def exBlogPage : BlogPage := ⟨1, true, ⟨2024, 1, 1⟩, [10, 11]⟩

/-- A three-event database exercising the recency fallback. -/
def exEventDb : List EventPage :=
  [⟨1, true, ⟨2024, 1, 1⟩, []⟩, ⟨2, true, ⟨2024, 2, 1⟩, [7]⟩,
   ⟨3, false, ⟨2024, 3, 1⟩, [7]⟩]

/-- An untagged event page, which falls back to recency. -/
def exEventPage : EventPage := ⟨1, true, ⟨2024, 1, 1⟩, []⟩

/-- Witness for the C4 theorem: the overlap branch at a tagged blog page
with live sharers, and the fallback branch at an untagged event page. -/
theorem related_content_spec_witness :
    ((related_posts exBlogDb exBlogPage).length
        = min 3 (exBlogDb.filter (fun q =>
            q.live && q.pk ≠ exBlogPage.pk
              && q.tags.any (fun t => exBlogPage.tags.contains t))).length ∧
      (∀ r ∈ related_posts exBlogDb exBlogPage, r ∈ exBlogDb ∧ r.live = true ∧
         r.pk ≠ exBlogPage.pk ∧
         r.tags.any (fun t => exBlogPage.tags.contains t) = true) ∧
      List.Pairwise (blogRelGe exBlogPage.tags)
        (related_posts exBlogDb exBlogPage)) ∧
    ((related_events exEventDb exEventPage).length
        = min 3 (exEventDb.filter (fun q =>
            q.live && q.pk ≠ exEventPage.pk)).length ∧
      (∀ r ∈ related_events exEventDb exEventPage, r ∈ exEventDb ∧
         r.live = true ∧ r.pk ≠ exEventPage.pk) ∧
      List.Pairwise eventDateGe (related_events exEventDb exEventPage) ∧
      (∀ q ∈ exEventDb, q.live = true → q.pk ≠ exEventPage.pk →
        q ∉ related_events exEventDb exEventPage →
        ∀ r ∈ related_events exEventDb exEventPage,
          PDate.leb q.start_date r.start_date = true)) :=
  ⟨related_content_spec.1 exBlogDb exBlogPage rfl (by decide) (by decide),
   related_content_spec.2.2.2 exEventDb exEventPage rfl (Or.inl rfl)⟩

theorem pyLookup_map_not_mem (fields : List String) (h : String → Val)
    (k : String) (hnk : k ∉ fields) :
    pyLookup (fields.map (fun f => (f, h f))) k = Option.none := by
  induction fields with
  | nil => rfl
  | cons f rest ih =>
      have hne : f ≠ k := fun hh => hnk (hh ▸ List.mem_cons_self f rest)
      simp only [List.map_cons, pyLookup, hne, if_false]
      exact ih (fun hh => hnk (List.mem_cons_of_mem _ hh))

theorem cleanListField_prop (v : Val) :
    ∃ xs, cleanListField v = .list xs ∧
      ∀ x ∈ xs, ∃ s, x = .str s ∧ s ≠ "" ∧ pyStrip s = s := by
  cases v with
  | none => exact ⟨[], rfl, by intro x hx; cases hx⟩
  | list l =>
      refine ⟨_, rfl, ?_⟩
      intro x hx
      rw [List.mem_map] at hx
      obtain ⟨it, hit, hx⟩ := hx
      rw [List.mem_filter] at hit
      have hcond := hit.2
      simp only [Bool.and_eq_true, decide_eq_true_eq] at hcond
      exact ⟨pyStrip (pyStr it), hx.symm, hcond.2, pyStrip_idem _⟩
  | str s =>
      by_cases hc : pyStrip (pyStr (.str s)) ≠ ""
      · refine ⟨[.str (pyStrip (pyStr (.str s)))], by simp [cleanListField, hc], ?_⟩
        intro x hx
        rw [List.mem_singleton] at hx
        subst hx
        exact ⟨pyStrip (pyStr (.str s)), rfl, hc, pyStrip_idem _⟩
      · refine ⟨[], by simp [cleanListField, hc], ?_⟩
        intro x hx; cases hx
  | int n =>
      by_cases hc : pyStrip (pyStr (.int n)) ≠ ""
      · refine ⟨[.str (pyStrip (pyStr (.int n)))], by simp [cleanListField, hc], ?_⟩
        intro x hx
        rw [List.mem_singleton] at hx
        subst hx
        exact ⟨pyStrip (pyStr (.int n)), rfl, hc, pyStrip_idem _⟩
      · refine ⟨[], by simp [cleanListField, hc], ?_⟩
        intro x hx; cases hx
  | bool b =>
      by_cases hc : pyStrip (pyStr (.bool b)) ≠ ""
      · refine ⟨[.str (pyStrip (pyStr (.bool b)))], by simp [cleanListField, hc], ?_⟩
        intro x hx
        rw [List.mem_singleton] at hx
        subst hx
        exact ⟨pyStrip (pyStr (.bool b)), rfl, hc, pyStrip_idem _⟩
      · refine ⟨[], by simp [cleanListField, hc], ?_⟩
        intro x hx; cases hx
  | dict dd =>
      by_cases hc : pyStrip (pyStr (.dict dd)) ≠ ""
      · refine ⟨[.str (pyStrip (pyStr (.dict dd)))], by simp [cleanListField, hc], ?_⟩
        intro x hx
        rw [List.mem_singleton] at hx
        subst hx
        exact ⟨pyStrip (pyStr (.dict dd)), rfl, hc, pyStrip_idem _⟩
      · refine ⟨[], by simp [cleanListField, hc], ?_⟩
        intro x hx; cases hx
  | date dt =>
      by_cases hc : pyStrip (pyStr (.date dt)) ≠ ""
      · refine ⟨[.str (pyStrip (pyStr (.date dt)))], by simp [cleanListField, hc], ?_⟩
        intro x hx
        rw [List.mem_singleton] at hx
        subst hx
        exact ⟨pyStrip (pyStr (.date dt)), rfl, hc, pyStrip_idem _⟩
      · refine ⟨[], by simp [cleanListField, hc], ?_⟩
        intro x hx; cases hx

theorem stringGroup_keyed (d : PyDict) : ∀ f kv,
    (fun f =>
       let value := (pyLookup d f).getD .none
       if pyTruthy value && pyStrip (pyStr value) ≠ "" then
         Option.some (f, Val.str (pyStrip (pyStr value)))
       else Option.none) f = Option.some kv → kv.1 = f := by
  intro f kv h
  simp only [] at h
  split at h
  · cases h; rfl
  · cases h

theorem intGroup_keyed (d : PyDict) : ∀ f kv,
    (fun f =>
       let value := (pyLookup d f).getD .none
       if value matches Val.none then Option.none
       else match pyInt value with
            | Option.some n => Option.some (f, Val.int n)
            | Option.none => Option.none) f = Option.some kv → kv.1 = f := by
  intro f kv h
  simp only [] at h
  split at h
  · cases h
  · split at h
    · cases h; rfl
    · cases h

theorem boolGroup_keyed (d : PyDict) : ∀ f kv,
    (fun f =>
       let value := (pyLookup d f).getD .none
       if value matches Val.none then Option.none
       else Option.some (f, Val.bool (pyTruthy value))) f = Option.some kv →
      kv.1 = f := by
  intro f kv h
  simp only [] at h
  split at h
  · cases h
  · cases h; rfl

theorem dateGroup_lookup_ne (d : PyDict) (f : String) (hne : "date_added" ≠ f) :
    pyLookup
      (if pyTruthy ((pyLookup d ("date_added")).getD .none) then
        match parse_contributor_date ((pyLookup d ("date_added")).getD .none) with
        | Option.some pd => [(("date_added" : String), Val.date pd)]
        | Option.none => []
      else []) f = Option.none := by
  cases hT : pyTruthy ((pyLookup d ("date_added")).getD .none)
  · simp [pyLookup]
  · cases hP : parse_contributor_date ((pyLookup d ("date_added")).getD .none) with
    | none => simp [hP, pyLookup]
    | some pd => simp [hP, pyLookup, hne]

theorem cleanDict_list_field (d : PyDict) (gu : Val) (f : String)
    (hf : f ∈ listFields) :
    pyLookup (cleanDict d gu) f
      = Option.some (cleanListField ((pyLookup d f).getD (.list []))) := by
  fin_cases hf <;>
  · simp only [cleanDict, pyLookup_append]
    rw [pyLookup_filterMap_keyed stringFields _ (stringGroup_keyed d) _ (by decide),
        pyLookup_filterMap_keyed intFields _ (intGroup_keyed d) _ (by decide),
        pyLookup_filterMap_keyed booleanFields _ (boolGroup_keyed d) _ (by decide),
        dateGroup_lookup_ne d _ (by decide),
        pyLookup_map_mem listFields _ _ (by decide)]
    simp [pyLookup]

theorem pyLookup_filterMap_self_none (fields : List String)
    (g : String → Option (String × Val))
    (hk : ∀ f kv, g f = Option.some kv → kv.1 = f)
    (f : String) (hgf : g f = Option.none) :
    pyLookup (fields.filterMap g) f = Option.none := by
  induction fields with
  | nil => rfl
  | cons f0 rest ih =>
      rw [List.filterMap_cons]
      cases hg0 : g f0 with
      | none => exact ih
      | some kv =>
          have hk0 : kv.1 = f0 := hk f0 kv hg0
          obtain ⟨k1, v1⟩ := kv
          by_cases hne : k1 = f
          · subst hne
            have hff : k1 = f0 := hk0
            rw [hff] at hgf
            rw [hgf] at hg0
            cases hg0
          · simp [pyLookup, hne, ih]

theorem cleanDict_int_field_omitted (d : PyDict) (gu : Val) (f : String)
    (hf : f ∈ intFields) (v : Val) (hv : pyLookup d f = Option.some v)
    (hint : pyInt v = Option.none) :
    pyLookup (cleanDict d gu) f = Option.none := by
  have hgf : (fun f' =>
        let value := (pyLookup d f').getD .none
        if value matches Val.none then Option.none
        else match pyInt value with
             | Option.some n => Option.some (f', Val.int n)
             | Option.none => Option.none) f = Option.none := by
    simp only [hv, Option.getD]
    cases v with
    | none => rfl
    | str s => simp [hint]
    | int n => cases hint
    | bool b => cases hint
    | list xs => rfl
    | dict dd => rfl
    | date dt => rfl
  fin_cases hf <;>
  · simp only [cleanDict, pyLookup_append]
    rw [pyLookup_filterMap_keyed stringFields _ (stringGroup_keyed d) _ (by decide),
        pyLookup_filterMap_self_none intFields _ (intGroup_keyed d) _ hgf,
        pyLookup_filterMap_keyed booleanFields _ (boolGroup_keyed d) _ (by decide),
        dateGroup_lookup_ne d _ (by decide),
        pyLookup_map_not_mem listFields _ _ (by decide)]
    simp [pyLookup]

theorem cleanDict_github (d : PyDict) (gu : Val) :
    pyLookup (cleanDict d gu) ("github_username") = Option.some gu := rfl

/-- C9: `clean_contributor_data` raises `ContributorDataError` exactly when
the input dictionary lacks the key `github_username`; for every input
containing that key the call succeeds, the result contains
`github_username`, each of the seven list fields is present and is a list
of non-empty stripped strings, and an integer field whose value cannot be
converted to `int` is omitted from the result rather than raising. -/
theorem clean_contributor_data_spec (d : PyDict) :
    (pyLookup d ("github_username") = Option.none →
       clean_contributor_data (.dict d) = .error .contributorDataError) ∧
    (∀ gu, pyLookup d ("github_username") = Option.some gu →
       ∃ c, clean_contributor_data (.dict d) = .ok c ∧
         pyLookup c ("github_username") = Option.some gu ∧
         (∀ f ∈ listFields, ∃ xs, pyLookup c f = Option.some (.list xs) ∧
            ∀ x ∈ xs, ∃ s, x = .str s ∧ s ≠ "" ∧ pyStrip s = s) ∧
         (∀ f ∈ intFields, ∀ v, pyLookup d f = Option.some v →
            pyInt v = Option.none → pyLookup c f = Option.none)) := by
  constructor
  · intro h
    simp [clean_contributor_data, h]
  · intro gu h
    refine ⟨cleanDict d gu, by simp [clean_contributor_data, h],
      cleanDict_github d gu, ?_, ?_⟩
    · intro f hf
      obtain ⟨xs, heq, hall⟩ :=
        cleanListField_prop ((pyLookup d f).getD (.list []))
      exact ⟨xs, by rw [cleanDict_list_field d gu f hf, heq], hall⟩
    · intro f hf v hv hint
      exact cleanDict_int_field_omitted d gu f hf v hv hint

/-- Witness for the C9 theorem: the empty dictionary raises, and a
dictionary with a username and an unconvertible `sort` succeeds with the
`sort` field omitted. -/
theorem clean_contributor_data_spec_witness :
    clean_contributor_data (.dict []) = .error .contributorDataError ∧
    (∃ c, clean_contributor_data
        (.dict [(("github_username" : String), Val.str "u"),
                ("sort", Val.str "x")]) = .ok c ∧
      pyLookup c ("github_username") = Option.some (Val.str "u") ∧
      (∀ f ∈ listFields, ∃ xs, pyLookup c f = Option.some (.list xs) ∧
         ∀ x ∈ xs, ∃ s, x = .str s ∧ s ≠ "" ∧ pyStrip s = s) ∧
      (∀ f ∈ intFields, ∀ v,
         pyLookup [(("github_username" : String), Val.str "u"),
                   ("sort", Val.str "x")] f = Option.some v →
         pyInt v = Option.none → pyLookup c f = Option.none)) :=
  ⟨(clean_contributor_data_spec []).1 rfl,
   (clean_contributor_data_spec
     [(("github_username" : String), Val.str "u"),
      ("sort", Val.str "x")]).2 (Val.str "u") rfl⟩

/-- The pure result of the enrichment loop body on a contributor whose
`github_username` is `gu` (the value `enrichContributor` wraps in `.ok`). -/
def enrichFun (c : PyDict) (gu : Val) : PyDict :=
  let image_id := (pyLookup c ("github_image_id")).getD .none
  let c1 :=
    if pyTruthy image_id then
      pyInsert c ("github_avatar_url") (.str (generate_github_avatar_url image_id))
    else c
  let c2 := pyInsert c1 ("github_profile_url")
    (.str (generate_github_profile_url gu))
  let nameVal := (pyLookup c2 ("name")).getD .none
  pyInsert c2 ("display_name")
    (if pyTruthy nameVal then nameVal else .str ("@" ++ pyStr gu))

theorem enrichContributor_eq (c : PyDict) (gu : Val)
    (hgu : pyLookup c ("github_username") = Option.some gu) :
    enrichContributor c = .ok (enrichFun c gu) := by
  simp only [enrichContributor, enrichFun]
  cases himg : pyTruthy ((pyLookup c ("github_image_id")).getD .none) with
  | false =>
      simp only [Bool.false_eq_true, if_false]
      rw [hgu]
  | true =>
      simp only [if_true]
      rw [pyLookup_pyInsert_ne _ _ _ _ (by decide), hgu]

theorem enrichFun_lookup_old (c : PyDict) (gu : Val) (k : String)
    (hk1 : ("github_avatar_url" : String) ≠ k)
    (hk2 : ("github_profile_url" : String) ≠ k)
    (hk3 : ("display_name" : String) ≠ k) :
    pyLookup (enrichFun c gu) k = pyLookup c k := by
  simp only [enrichFun]
  rw [pyLookup_pyInsert_ne _ _ _ _ hk3, pyLookup_pyInsert_ne _ _ _ _ hk2]
  cases himg : pyTruthy ((pyLookup c ("github_image_id")).getD .none) with
  | false => simp only [Bool.false_eq_true, if_false]
  | true =>
      simp only [if_true]
      rw [pyLookup_pyInsert_ne _ _ _ _ hk1]

theorem enrichFun_profile (c : PyDict) (gu : Val) :
    pyLookup (enrichFun c gu) ("github_profile_url")
      = Option.some (.str (generate_github_profile_url gu)) := by
  simp only [enrichFun]
  rw [pyLookup_pyInsert_ne _ _ _ _ (by decide), pyLookup_pyInsert_self]

theorem enrichFun_name_inner (c : PyDict) (gu : Val) :
    pyLookup (pyInsert
      (if pyTruthy ((pyLookup c ("github_image_id")).getD .none) then
        pyInsert c ("github_avatar_url")
          (.str (generate_github_avatar_url
            ((pyLookup c ("github_image_id")).getD .none)))
      else c) ("github_profile_url")
      (.str (generate_github_profile_url gu))) ("name")
    = pyLookup c ("name") := by
  rw [pyLookup_pyInsert_ne _ _ _ _ (by decide)]
  cases himg : pyTruthy ((pyLookup c ("github_image_id")).getD .none) with
  | false => simp only [Bool.false_eq_true, if_false]
  | true =>
      simp only [if_true]
      rw [pyLookup_pyInsert_ne _ _ _ _ (by decide)]

theorem enrichFun_display (c : PyDict) (gu : Val) :
    pyLookup (enrichFun c gu) ("display_name")
      = Option.some
          (if pyTruthy ((pyLookup c ("name")).getD .none) then
            (pyLookup c ("name")).getD .none
          else .str ("@" ++ pyStr gu)) := by
  simp only [enrichFun]
  rw [pyLookup_pyInsert_self, enrichFun_name_inner]

theorem enrichFun_avatar (c : PyDict) (gu : Val) :
    pyLookup (enrichFun c gu) ("github_avatar_url")
      = if pyTruthy ((pyLookup c ("github_image_id")).getD .none) then
          Option.some (.str (generate_github_avatar_url
            ((pyLookup c ("github_image_id")).getD .none)))
        else pyLookup c ("github_avatar_url") := by
  simp only [enrichFun]
  rw [pyLookup_pyInsert_ne _ _ _ _ (by decide),
      pyLookup_pyInsert_ne _ _ _ _ (by decide)]
  cases himg : pyTruthy ((pyLookup c ("github_image_id")).getD .none) with
  | false => simp only [Bool.false_eq_true, if_false]
  | true =>
      simp only [if_true]
      rw [pyLookup_pyInsert_self]

/-- C10: after the `home` view's enrichment loop, a contributor dictionary
holds `github_profile_url` equal to `https://github.com/` followed by its
username, `display_name` equal to its `name` when that is a non-empty
string and otherwise `@` followed by the username, and `github_avatar_url`
only when `github_image_id` is truthy — a contributor with
`github_image_id` absent or equal to `0` gets no avatar URL. -/
theorem home_enrichment_spec (c : PyDict) (gu : Val)
    (hgu : pyLookup c ("github_username") = Option.some gu)
    (hav : pyLookup c ("github_avatar_url") = Option.none) :
    ∃ c', enrichContributor c = .ok c' ∧
      pyLookup c' ("github_profile_url")
        = Option.some (.str (("https://github.com/") ++ pyStr gu)) ∧
      (∀ s, pyLookup c ("name") = Option.some (.str s) → s ≠ "" →
         pyLookup c' ("display_name") = Option.some (.str s)) ∧
      ((pyLookup c ("name") = Option.none ∨
        pyLookup c ("name") = Option.some (.str "")) →
         pyLookup c' ("display_name")
           = Option.some (.str (("@") ++ pyStr gu))) ∧
      (∀ v, pyLookup c ("github_image_id") = Option.some v →
         pyTruthy v = true →
         pyLookup c' ("github_avatar_url")
           = Option.some (.str (generate_github_avatar_url v))) ∧
      ((pyLookup c ("github_image_id") = Option.none ∨
        pyLookup c ("github_image_id") = Option.some (.int 0)) →
         pyLookup c' ("github_avatar_url") = Option.none) := by
  refine ⟨enrichFun c gu, enrichContributor_eq c gu hgu, ?_, ?_, ?_, ?_, ?_⟩
  · rw [enrichFun_profile]
    rfl
  · intro s hs hne
    rw [enrichFun_display, hs]
    have ht : pyTruthy ((Option.some (Val.str s)).getD .none) = true := by
      simp [pyTruthy, hne]
    rw [if_pos ht]
    rfl
  · intro hn
    rw [enrichFun_display]
    rcases hn with hn | hn <;> rw [hn] <;> rfl
  · intro v hv htr
    rw [enrichFun_avatar, hv]
    simp only [Option.getD]
    rw [if_pos htr]
  · intro hn
    rw [enrichFun_avatar]
    rcases hn with hn | hn <;> rw [hn] <;> simpa [pyTruthy] using hav

/-- Witness for the C10 theorem at a contributor with a name and no
`github_image_id`. -/
theorem home_enrichment_spec_witness :
    ∃ c', enrichContributor
        [(("github_username" : String), Val.str "jd"),
         ("name", Val.str "John")] = .ok c' ∧
      pyLookup c' ("github_profile_url")
        = Option.some (.str (("https://github.com/") ++ pyStr (Val.str "jd"))) ∧
      (∀ s, pyLookup [(("github_username" : String), Val.str "jd"),
           ("name", Val.str "John")] ("name") = Option.some (.str s) →
         s ≠ "" → pyLookup c' ("display_name") = Option.some (.str s)) ∧
      ((pyLookup [(("github_username" : String), Val.str "jd"),
           ("name", Val.str "John")] ("name") = Option.none ∨
        pyLookup [(("github_username" : String), Val.str "jd"),
           ("name", Val.str "John")] ("name") = Option.some (.str "")) →
         pyLookup c' ("display_name")
           = Option.some (.str (("@") ++ pyStr (Val.str "jd")))) ∧
      (∀ v, pyLookup [(("github_username" : String), Val.str "jd"),
           ("name", Val.str "John")] ("github_image_id") = Option.some v →
         pyTruthy v = true →
         pyLookup c' ("github_avatar_url")
           = Option.some (.str (generate_github_avatar_url v))) ∧
      ((pyLookup [(("github_username" : String), Val.str "jd"),
           ("name", Val.str "John")] ("github_image_id") = Option.none ∨
        pyLookup [(("github_username" : String), Val.str "jd"),
           ("name", Val.str "John")] ("github_image_id")
          = Option.some (.int 0)) →
         pyLookup c' ("github_avatar_url") = Option.none) :=
  home_enrichment_spec
    [(("github_username" : String), Val.str "jd"), ("name", Val.str "John")]
    (Val.str "jd") rfl rfl

/-- C7 (amended): for every successfully fetched and cleaned contributor
list, `get_recent_contributors(count)` returns the first `count` cleaned
contributors under the descending `(date_added, sort)` order in which a
contributor without a parseable `date_added` is keyed with the minimum date
`0001-01-01` (`datetime.min`), and a contributor dictionary lacking
`github_username` is skipped by the cleaning loop rather than aborting the
whole result. -/
theorem get_recent_contributors_sorted_spec :
    (∀ count contributors cleaned, cleanAll contributors = .ok cleaned →
      (get_recent_contributors count (.ok (.list contributors))).length
          = min count cleaned.length ∧
      (∀ c ∈ get_recent_contributors count (.ok (.list contributors)),
         c ∈ cleaned) ∧
      List.Pairwise contribGe
        (get_recent_contributors count (.ok (.list contributors))) ∧
      (∀ c ∈ cleaned,
         c ∉ get_recent_contributors count (.ok (.list contributors)) →
         ∀ r ∈ get_recent_contributors count (.ok (.list contributors)),
           contribGe r c)) ∧
    (∀ d rest, pyLookup d ("github_username") = Option.none →
       cleanAll (.dict d :: rest) = cleanAll rest) ∧
    (∀ d rest gu, pyLookup d ("github_username") = Option.some gu →
       cleanAll (.dict d :: rest)
         = match cleanAll rest with
           | .ok tail => .ok (cleanDict d gu :: tail)
           | .error e => .error e) := by
  refine ⟨?_, ?_, ?_⟩
  · intro count contributors cleaned h
    have hred : get_recent_contributors count (.ok (.list contributors))
        = (List.insertionSort contribGe cleaned).take count := by
      unfold get_recent_contributors
      simp only [fetch_contributors_yaml]
      rw [h]
    rw [hred]
    exact insertionSort_take_spec contribGe cleaned count
  · intro d rest h
    simp [cleanAll, clean_contributor_data, h]
  · intro d rest gu h
    simp [cleanAll, clean_contributor_data, h]

/-- Witness for the amended C7 theorem on the test fixture: three valid
contributors plus one lacking `github_username`, which is skipped. -/
theorem get_recent_contributors_sorted_spec_witness :
    ((get_recent_contributors 2 (.ok (.list
        [.dict [(("github_username" : String), Val.str "a"),
                ("date_added", Val.date ⟨2024, 1, 1⟩)],
         .dict [(("github_username" : String), Val.str "b"),
                ("date_added", Val.date ⟨2024, 1, 2⟩)]]))).length
      = min 2 (cleanDict [(("github_username" : String), Val.str "a"),
                ("date_added", Val.date ⟨2024, 1, 1⟩)] (Val.str "a") ::
               [cleanDict [(("github_username" : String), Val.str "b"),
                ("date_added", Val.date ⟨2024, 1, 2⟩)] (Val.str "b")]).length ∧
      List.Pairwise contribGe
        (get_recent_contributors 2 (.ok (.list
          [.dict [(("github_username" : String), Val.str "a"),
                  ("date_added", Val.date ⟨2024, 1, 1⟩)],
           .dict [(("github_username" : String), Val.str "b"),
                  ("date_added", Val.date ⟨2024, 1, 2⟩)]])))) ∧
    cleanAll [.dict [], .dict [(("github_username" : String), Val.str "c")]]
      = cleanAll [.dict [(("github_username" : String), Val.str "c")]] := by
  have h : cleanAll
      [.dict [(("github_username" : String), Val.str "a"),
              ("date_added", Val.date ⟨2024, 1, 1⟩)],
       .dict [(("github_username" : String), Val.str "b"),
              ("date_added", Val.date ⟨2024, 1, 2⟩)]]
      = .ok (cleanDict [(("github_username" : String), Val.str "a"),
                ("date_added", Val.date ⟨2024, 1, 1⟩)] (Val.str "a") ::
             [cleanDict [(("github_username" : String), Val.str "b"),
                ("date_added", Val.date ⟨2024, 1, 2⟩)] (Val.str "b")]) := by
    simp [cleanAll, clean_contributor_data, pyLookup]
  have hs := get_recent_contributors_sorted_spec.1 2 _ _ h
  exact ⟨⟨hs.1, hs.2.2.1⟩,
    get_recent_contributors_sorted_spec.2.1 []
      [.dict [(("github_username" : String), Val.str "c")]] rfl⟩

theorem pyLookup_filterMap_self (fields : List String)
    (g : String → Option (String × Val))
    (hk : ∀ f kv, g f = Option.some kv → kv.1 = f)
    (f : String) (hmem : f ∈ fields) (w : Val)
    (hgf : g f = Option.some (f, w)) :
    pyLookup (fields.filterMap g) f = Option.some w := by
  induction fields with
  | nil => cases hmem
  | cons f0 rest ih =>
      rw [List.filterMap_cons]
      by_cases h0 : f0 = f
      · subst h0
        rw [hgf]
        simp [pyLookup]
      · have hm : f ∈ rest := by
          rcases List.mem_cons.1 hmem with he | hm
          · exact absurd he.symm h0
          · exact hm
        cases hg0 : g f0 with
        | none => exact ih hm
        | some kv =>
            obtain ⟨k1, v1⟩ := kv
            have hk1 : k1 = f0 := hk f0 (k1, v1) hg0
            subst hk1
            simp [pyLookup, h0, ih hm]

theorem cleanDict_date (d : PyDict) (gu : Val) :
    pyLookup (cleanDict d gu) ("date_added")
      = (if pyTruthy ((pyLookup d ("date_added")).getD .none) then
          match parse_contributor_date ((pyLookup d ("date_added")).getD .none)
            with
          | Option.some pd => Option.some (Val.date pd)
          | Option.none => Option.none
        else Option.none) := by
  simp only [cleanDict, pyLookup_append]
  rw [pyLookup_filterMap_keyed stringFields _ (stringGroup_keyed d) _ (by decide),
      pyLookup_filterMap_keyed intFields _ (intGroup_keyed d) _ (by decide),
      pyLookup_filterMap_keyed booleanFields _ (boolGroup_keyed d) _ (by decide),
      pyLookup_map_not_mem listFields _ _ (by decide)]
  cases hT : pyTruthy ((pyLookup d ("date_added")).getD .none) with
  | false => simp [pyLookup]
  | true =>
      cases hP : parse_contributor_date ((pyLookup d ("date_added")).getD .none)
        with
      | none => simp [pyLookup]
      | some pd => simp [pyLookup]

theorem cleanDict_int_present (d : PyDict) (gu : Val) (f : String)
    (hf : f ∈ intFields) (v : Val) (hv : pyLookup d f = Option.some v)
    (n : Int) (hint : pyInt v = Option.some n) :
    pyLookup (cleanDict d gu) f = Option.some (Val.int n) := by
  have hgf : (fun f' =>
        let value := (pyLookup d f').getD .none
        if value matches Val.none then Option.none
        else match pyInt value with
             | Option.some m => Option.some (f', Val.int m)
             | Option.none => Option.none) f = Option.some (f, Val.int n) := by
    simp only [hv, Option.getD]
    cases v with
    | none => cases hint
    | str s => simp [show pyInt (Val.str s) = Option.some n from hint]
    | int m => cases hint; rfl
    | bool b =>
        simp only []
        rw [show pyInt (Val.bool b) = Option.some n from hint]
        rfl
    | list xs => cases hint
    | dict dd => cases hint
    | date dt => cases hint
  have hne : ("github_username" : String) ≠ f := by
    fin_cases hf <;> decide
  simp only [cleanDict, pyLookup_append]
  rw [pyLookup_filterMap_keyed stringFields _ (stringGroup_keyed d) _
        (by fin_cases hf <;> decide),
      pyLookup_filterMap_self intFields _ (intGroup_keyed d) f hf _ hgf]
  simp [pyLookup, hne]

/-- Counterexample to C7 as stated: the claim says contributors without a
parseable `date_added` are placed last, but the sort keys them with
`datetime.min.date() = 0001-01-01`, so a contributor explicitly dated
`0001-01-01` ties with them and the tie is broken by the `sort` value: with
a dateless contributor of sort 5 and a `0001-01-01`-dated contributor of
sort 3, the dateless one comes first and the dated one last. -/
theorem get_recent_contributors_dateless_counterexample :
    get_recent_contributors 4 (.ok (.list
      [.dict [(("github_username" : String), Val.str "a"), ("sort", Val.int 5)],
       .dict [(("github_username" : String), Val.str "b"),
              ("date_added", Val.str "0001-01-01"), ("sort", Val.int 3)]]))
      = [cleanDict [(("github_username" : String), Val.str "a"),
           ("sort", Val.int 5)] (Val.str "a"),
         cleanDict [(("github_username" : String), Val.str "b"),
           ("date_added", Val.str "0001-01-01"), ("sort", Val.int 3)]
           (Val.str "b")] ∧
    pyLookup (cleanDict [(("github_username" : String), Val.str "a"),
        ("sort", Val.int 5)] (Val.str "a")) ("date_added") = Option.none ∧
    pyLookup (cleanDict [(("github_username" : String), Val.str "b"),
        ("date_added", Val.str "0001-01-01"), ("sort", Val.int 3)]
        (Val.str "b")) ("date_added")
      = Option.some (Val.date ⟨1, 1, 1⟩) ∧
    parse_contributor_date (Val.str ("0001-01-01")) = Option.some ⟨1, 1, 1⟩ ∧
    PDate.min = ⟨1, 1, 1⟩ := by
  have hparse : parse_contributor_date (Val.str ("0001-01-01"))
      = Option.some ⟨1, 1, 1⟩ := by
    simp only [parse_contributor_date, pyStr]
    decide
  have hAdate : pyLookup (cleanDict [(("github_username" : String), Val.str "a"),
      ("sort", Val.int 5)] (Val.str "a")) ("date_added") = Option.none := by
    rw [cleanDict_date]
    rfl
  have hBdate : pyLookup (cleanDict [(("github_username" : String), Val.str "b"),
      ("date_added", Val.str "0001-01-01"), ("sort", Val.int 3)]
      (Val.str "b")) ("date_added") = Option.some (Val.date ⟨1, 1, 1⟩) := by
    rw [cleanDict_date]
    have hd : (pyLookup [(("github_username" : String), Val.str "b"),
        ("date_added", Val.str "0001-01-01"), ("sort", Val.int 3)]
        ("date_added")).getD .none = Val.str "0001-01-01" := rfl
    rw [hd, hparse]
    rfl
  have hAsort : pyLookup (cleanDict [(("github_username" : String), Val.str "a"),
      ("sort", Val.int 5)] (Val.str "a")) ("sort") = Option.some (Val.int 5) :=
    cleanDict_int_present
      [(("github_username" : String), Val.str "a"), ("sort", Val.int 5)]
      (Val.str "a") ("sort") (by decide) (Val.int 5) rfl 5 rfl
  have hBsort : pyLookup (cleanDict [(("github_username" : String), Val.str "b"),
      ("date_added", Val.str "0001-01-01"), ("sort", Val.int 3)]
      (Val.str "b")) ("sort") = Option.some (Val.int 3) :=
    cleanDict_int_present
      [(("github_username" : String), Val.str "b"),
       ("date_added", Val.str "0001-01-01"), ("sort", Val.int 3)]
      (Val.str "b") ("sort") (by decide) (Val.int 3) rfl 3 rfl
  have hkeyA : contribSortKey (cleanDict
      [(("github_username" : String), Val.str "a"), ("sort", Val.int 5)]
      (Val.str "a")) = (PDate.min, 5) := by
    simp only [contribSortKey, hAdate, hAsort]
  have hkeyB : contribSortKey (cleanDict
      [(("github_username" : String), Val.str "b"),
       ("date_added", Val.str "0001-01-01"), ("sort", Val.int 3)]
      (Val.str "b")) = (⟨1, 1, 1⟩, 3) := by
    simp only [contribSortKey, hBdate, hBsort]
  have hge : contribGe
      (cleanDict [(("github_username" : String), Val.str "a"),
        ("sort", Val.int 5)] (Val.str "a"))
      (cleanDict [(("github_username" : String), Val.str "b"),
        ("date_added", Val.str "0001-01-01"), ("sort", Val.int 3)]
        (Val.str "b")) := by
    show keyLeb _ _ = true
    rw [hkeyA, hkeyB]
    decide
  have hclean : cleanAll
      [.dict [(("github_username" : String), Val.str "a"), ("sort", Val.int 5)],
       .dict [(("github_username" : String), Val.str "b"),
              ("date_added", Val.str "0001-01-01"), ("sort", Val.int 3)]]
      = .ok [cleanDict [(("github_username" : String), Val.str "a"),
               ("sort", Val.int 5)] (Val.str "a"),
             cleanDict [(("github_username" : String), Val.str "b"),
               ("date_added", Val.str "0001-01-01"), ("sort", Val.int 3)]
               (Val.str "b")] := by
    simp [cleanAll, clean_contributor_data, pyLookup]
  refine ⟨?_, hAdate, hBdate, hparse, rfl⟩
  unfold get_recent_contributors
  simp only [fetch_contributors_yaml]
  rw [hclean]
  simp only [List.insertionSort, List.orderedInsert]
  rw [if_pos hge]
  rfl

theorem clean_ok_username (v : Val) (cl : PyDict)
    (h : clean_contributor_data v = .ok cl) :
    ∃ gu, pyLookup cl ("github_username") = Option.some gu := by
  cases v with
  | dict d =>
      cases hg : pyLookup d ("github_username") with
      | none => rw [clean_contributor_data, hg] at h; cases h
      | some gu =>
          rw [clean_contributor_data, hg] at h
          cases h
          exact ⟨gu, cleanDict_github d gu⟩
  | str s =>
      rw [clean_contributor_data] at h
      split at h <;> cases h
  | list xs =>
      rw [clean_contributor_data] at h
      split at h <;> cases h
  | none => cases h
  | int n => cases h
  | bool b => cases h
  | date dt => cases h

theorem cleanAll_username (cs : List Val) (l : List PyDict)
    (h : cleanAll cs = .ok l) (c : PyDict) (hc : c ∈ l) :
    ∃ gu, pyLookup c ("github_username") = Option.some gu := by
  induction cs generalizing l with
  | nil =>
      rw [cleanAll] at h
      cases h
      cases hc
  | cons x rest ih =>
      rw [cleanAll] at h
      cases hx : clean_contributor_data x with
      | ok cl =>
          rw [hx] at h
          cases hr : cleanAll rest with
          | ok tail =>
              rw [hr] at h
              cases h
              rcases List.mem_cons.1 hc with he | hm
              · exact he ▸ clean_ok_username x cl hx
              · exact ih tail hr hm
          | error e => rw [hr] at h; cases h
      | error e =>
          rw [hx] at h
          cases e with
          | contributorDataError => exact ih l h hc
          | typeError => cases h
          | keyError => cases h

theorem grc_username (count : Nat) (net : NetOutcome) (c : PyDict)
    (hc : c ∈ get_recent_contributors count net) :
    ∃ gu, pyLookup c ("github_username") = Option.some gu := by
  unfold get_recent_contributors at hc
  cases hf : fetch_contributors_yaml net with
  | error e => rw [hf] at hc; cases hc
  | ok doc =>
      rw [hf] at hc
      cases doc with
      | list contributors =>
          dsimp only at hc
          cases hcl : cleanAll contributors with
          | error e => rw [hcl] at hc; cases hc
          | ok cleaned =>
              rw [hcl] at hc
              have hmem : c ∈ cleaned :=
                (List.perm_insertionSort contribGe cleaned).mem_iff.1
                  ((List.take_sublist count _).subset hc)
              exact cleanAll_username contributors cleaned hcl c hmem
      | none => cases hc
      | str s => cases hc
      | int n => cases hc
      | bool b => cases hc
      | dict d => cases hc
      | date dt => cases hc

theorem enrichAll_ok (cs : List PyDict)
    (h : ∀ c ∈ cs, ∃ gu, pyLookup c ("github_username") = Option.some gu) :
    ∃ l, enrichAll cs = .ok l := by
  induction cs with
  | nil => exact ⟨[], rfl⟩
  | cons c rest ih =>
      obtain ⟨gu, hgu⟩ := h c (List.mem_cons_self c rest)
      obtain ⟨tl, htl⟩ := ih (fun c' hc' => h c' (List.mem_cons_of_mem _ hc'))
      refine ⟨enrichFun c gu :: tl, ?_⟩
      rw [enrichAll, enrichContributor_eq c gu hgu, htl]

/-- C1 (spec-modelled on the packages side): rendering the homepage merges
both remote YAML listings — the view obtains the 4 most recent contributors
via `get_recent_contributors` and the 3 most recent packages via
`get_recent_packages`, and supplies both lists (the contributors enriched
in place) together with the 3 most recent live blog posts ordered by date
descending in the homepage context. -/
theorem home_context_spec (netC netP : NetOutcome) (db : List BlogPage) :
    ∃ ctx, home netC netP db = .ok ctx ∧
      enrichAll (get_recent_contributors 4 netC) = .ok ctx.recent_contributors ∧
      ctx.recent_packages = get_recent_packages 3 netP ∧
      (get_recent_packages 3 netP).length ≤ 3 ∧
      List.Pairwise packageGe ctx.recent_packages ∧
      ctx.recent_blog_posts.length = min 3 (db.filter (·.live)).length ∧
      (∀ p ∈ ctx.recent_blog_posts, p ∈ db ∧ p.live = true) ∧
      List.Pairwise blogDateGe ctx.recent_blog_posts ∧
      (∀ q ∈ db, q.live = true → q ∉ ctx.recent_blog_posts →
        ∀ p ∈ ctx.recent_blog_posts, PDate.leb q.date p.date = true) := by
  obtain ⟨l, hl⟩ := enrichAll_ok (get_recent_contributors 4 netC)
    (fun c hc => grc_username 4 netC c hc)
  have hblog := insertionSort_take_spec blogDateGe (db.filter (·.live)) 3
  have hpkg : (get_recent_packages 3 netP).length ≤ 3 ∧
      List.Pairwise packageGe (get_recent_packages 3 netP) := by
    unfold get_recent_packages
    cases hf : fetch_packages_yaml netP with
    | error e => exact ⟨Nat.zero_le 3, List.Pairwise.nil⟩
    | ok doc =>
        cases doc with
        | list packages =>
            have hp := insertionSort_take_spec packageGe packages 3
            exact ⟨by rw [hp.1]; exact min_le_left _ _, hp.2.2.1⟩
        | none => exact ⟨Nat.zero_le 3, List.Pairwise.nil⟩
        | str s => exact ⟨Nat.zero_le 3, List.Pairwise.nil⟩
        | int n => exact ⟨Nat.zero_le 3, List.Pairwise.nil⟩
        | bool b => exact ⟨Nat.zero_le 3, List.Pairwise.nil⟩
        | dict dd => exact ⟨Nat.zero_le 3, List.Pairwise.nil⟩
        | date dt => exact ⟨Nat.zero_le 3, List.Pairwise.nil⟩
  refine ⟨⟨l, get_recent_packages 3 netP,
    (List.insertionSort blogDateGe (db.filter (·.live))).take 3⟩, ?_,
    hl, rfl, hpkg.1, hpkg.2, hblog.1, ?_, hblog.2.2.1, ?_⟩
  · rw [home, hl]
  · intro p hp
    have := hblog.2.1 p hp
    rw [List.mem_filter] at this
    exact ⟨this.1, this.2⟩
  · intro q hq hlive hnot p hp
    have hqf : q ∈ db.filter (·.live) := by
      rw [List.mem_filter]
      exact ⟨hq, hlive⟩
    exact hblog.2.2.2 q hqf hnot p hp

/-- Witness for the C1 theorem: the homepage context exists even when both
remote fetches fail, with an empty database. -/
theorem home_context_spec_witness :
    ∃ ctx, home (.urlError ("x")) (.yamlError ("y")) [] = .ok ctx ∧
      enrichAll (get_recent_contributors 4 (.urlError ("x")))
        = .ok ctx.recent_contributors ∧
      ctx.recent_packages = get_recent_packages 3 (.yamlError ("y")) ∧
      (get_recent_packages 3 (.yamlError ("y"))).length ≤ 3 ∧
      List.Pairwise packageGe ctx.recent_packages ∧
      ctx.recent_blog_posts.length
        = min 3 (List.filter (·.live) ([] : List BlogPage)).length ∧
      (∀ p ∈ ctx.recent_blog_posts, p ∈ ([] : List BlogPage) ∧ p.live = true) ∧
      List.Pairwise blogDateGe ctx.recent_blog_posts ∧
      (∀ q ∈ ([] : List BlogPage), q.live = true →
        q ∉ ctx.recent_blog_posts →
        ∀ p ∈ ctx.recent_blog_posts, PDate.leb q.date p.date = true) :=
  home_context_spec (.urlError ("x")) (.yamlError ("y")) []
